import Mathlib

/-!
Verification of the bitburner-save-editor save-state reconciliation engine.

This file shallowly embeds the engine found in the repository sources
(`FileStore` in src/components/inputs/number-input.tsx and its revision in
unnamed part_009, the player/servers section component in unnamed part_005,
and the augmentations section in
src/components/editor/section/augmentations-section.tsx) and proves or
refutes the specification claims about it.

Modelling conventions:
- Section payloads are JSON-parsed into live objects by the codec; since
  JSON.parse and JSON.stringify compose to the identity up to semantic
  (tree) equality, a wire payload is modelled directly as the parsed Lean
  value, and the empty-string / absent-key sentinel as Option.none.
- JS objects used as string-keyed records are modelled as association
  lists (List (String × _)); property update rewrites the first matching
  key in place, property addition appends, delete filters the key out,
  matching JS object key-order semantics.
- JS functions that throw on the modelled path return Option/Except, with
  none/error standing for the thrown exception.
- Numbers are Lean Int (the engine only moves integers on the modelled
  paths).
-/

/-- JS-style association-list lookup: first entry with the given key. -/
def lookupA (k : String) : List (String × α) → Option α
  | [] => none
  | (k', v) :: rest => if k' = k then some v else lookupA k rest

/-- Rewrite the value of the first entry with the given key in place. -/
def setA (k : String) (f : α → α) : List (String × α) → List (String × α)
  | [] => []
  | (k', v) :: rest => if k' = k then (k', f v) :: rest else (k', v) :: setA k f rest

/-- JS delete obj[k]: remove the entry with the given key. -/
def deleteA (k : String) (l : List (String × α)) : List (String × α) :=
  l.filter (fun e => e.1 ≠ k)

/-- One {name, level} record of the player's augmentation arrays. -/
structure Aug where
  name : String
  level : Int
deriving DecidableEq, Repr

/-- The fixed name of the leveled special augmentation. -/
def neurofluxName : String := "NeuroFlux Governor"

/-- The fixed "editor used" exploit marker (Bitburner.Exploit.EditSaveFile). -/
def editSaveFileExploit : String := "EditSaveFile"

/-- The container type tag sentinel (Bitburner.Ctor.BitburnerSaveObject). -/
def saveObjectCtor : String := "BitburnerSaveObject"

/-- The fields of the PlayerSave section's inner data object that the engine
reads or writes. Fields the engine never touches pass through unchanged and
are omitted. factions and factionInvitations may be absent from legacy
saves, hence Option. -/
structure Player where
  exploits : List String
  augmentations : List Aug
  queuedAugmentations : List Aug
  factions : Option (List String)
  factionInvitations : Option (List String)
  purchasedServers : List String
  jobs : List (String × String)
deriving DecidableEq, Repr

/-- One faction record of the FactionsSave section (the write-through target:
the code unwraps the legacy nested .data shape and the flat shape to the
same target object, so the entry is modelled as that target directly).
All fields may be absent. -/
structure FactionData where
  playerReputation : Option Int
  favor : Option Int
  alreadyInvited : Option Bool
  isMember : Option Bool
  isBanned : Option Bool
  augmentations : Option (List String)
deriving DecidableEq, Repr

/-- A faction record with every field absent (the code's fallback when the
original save has no record for the faction). -/
def emptyFactionData : FactionData :=
  { playerReputation := none, favor := none, alreadyInvited := none,
    isMember := none, isBanned := none, augmentations := none }

/-- One company record of the CompaniesSave section. In the save schema
favor is required while playerReputation is optional. -/
structure CompanyRec where
  favor : Int
  playerReputation : Option Int
deriving DecidableEq, Repr

/-- One server record of the AllServersSave section (write-through target of
both the flat and the nested legacy shapes), restricted to the fields the
engine reads or writes. -/
structure ServerFields where
  hostname : String
  organizationName : String
  maxRam : Int
  cpuCores : Int
  hackDifficulty : Int
  minDifficulty : Int
  moneyAvailable : Int
  moneyMax : Int
  requiredHackingSkill : Int
  hasAdminRights : Bool
  backdoorInstalled : Bool
  purchasedByPlayer : Bool
deriving DecidableEq, Repr

/-- The decoded container: one field per SaveDataKey, Option.none standing
for the null section produced by the empty-string / absent-key sentinel.
Sections the engine never mutates carry an opaque parsed payload. -/
structure SaveSections where
  playerSave : Option Player
  factionsSave : Option (List (String × FactionData))
  allServersSave : Option (List (String × ServerFields))
  companiesSave : Option (List (String × CompanyRec))
  aliasesSave : Option Nat
  globalAliasesSave : Option Nat
  stockMarketSave : Option Nat
  settingsSave : Option Nat
  versionSave : Option Nat
  allGangsSave : Option Nat
  lastExportBonus : Option Nat
  staneksGiftSave : Option Nat
  goSave : Option Nat
  infiltrationsSave : Option Nat
deriving DecidableEq, Repr

/-- The wire container: type tag plus the per-key payload map (payloads
modelled post-JSON-parse, none for the "" sentinel). -/
structure RawSave where
  ctor : String
  data : SaveSections
deriving DecidableEq, Repr

/-- The document store: pristine baseline clone and live working clone.
originalSave is the baseline, modifiedSave the working copy. -/
structure Store where
  originalSave : SaveSections
  modifiedSave : SaveSections
deriving DecidableEq, Repr

/-- The marker side effect of processFile: after setSaveData, if the working
copy's PlayerSave exists and its exploits list does not already contain the
EditSaveFile marker, push the marker onto the working copy only. -/
def applyExploitMarker (st : Store) : Store :=
  match st.modifiedSave.playerSave with
  | none => st
  | some p =>
    if editSaveFileExploit ∈ p.exploits then st
    else
      let p1 := { p with exploits := p.exploits ++ [editSaveFileExploit] }
      { st with modifiedSave := { st.modifiedSave with playerSave := some p1 } }

/-- FileStore.processFile: decode (per-key JSON.parse with "" ↦ null), check
the container tag, then setSaveData (deep-clone twice into baseline and
working), then append the EditSaveFile marker to the working copy. Except
models the thrown load-abort error. -/
def processFile (w : RawSave) : Except String Store :=
  if w.ctor = saveObjectCtor then
    Except.ok (applyExploitMarker { originalSave := w.data, modifiedSave := w.data })
  else
    Except.error "Invalid save file"

/-- The CompaniesSave export filter of downloadFile: keep only companies
where playerReputation !== 0 or favor !== 0 (an absent playerReputation
compares !== 0 in JS, hence ≠ some 0). -/
def filterZeroCompanies (cs : List (String × CompanyRec)) : List (String × CompanyRec) :=
  cs.filter (fun e => e.2.playerReputation ≠ some 0 ∨ e.2.favor ≠ 0)

/-- The per-section encode of FileStore.downloadFile: null sections become
the "" sentinel (still none here), CompaniesSave is filtered, PlayerSave is
deep-copied (identity), every other section is re-stringified unchanged. -/
def encodeSections (s : SaveSections) : SaveSections :=
  { s with companiesSave := s.companiesSave.map filterZeroCompanies }

/-- FileStore.downloadFile restricted to the exported container (the
filename computation is modelled separately). -/
def downloadRaw (st : Store) : RawSave :=
  { ctor := saveObjectCtor, data := encodeSections st.modifiedSave }

/-- FileStore.revertChanges: replace the working copy with a fresh deep
clone of the baseline. -/
def revertChanges (st : Store) : Store :=
  { st with modifiedSave := st.originalSave }

/-- FileStore.hasChanges: structural deep comparison of the two copies. -/
def hasChanges (st : Store) : Bool :=
  decide (st.originalSave ≠ st.modifiedSave)

/-- Partial server edit (Partial of the server fields the UI can write);
none means the property is absent from the updates object. -/
structure ServerUpdates where
  hostname : Option String := none
  organizationName : Option String := none
  maxRam : Option Int := none
  cpuCores : Option Int := none
  hackDifficulty : Option Int := none
  minDifficulty : Option Int := none
  moneyAvailable : Option Int := none
  moneyMax : Option Int := none
  requiredHackingSkill : Option Int := none
  hasAdminRights : Option Bool := none
  backdoorInstalled : Option Bool := none
  purchasedByPlayer : Option Bool := none
deriving DecidableEq, Repr

/-- Object.assign of a partial server edit onto a server record. -/
def assignServer (u : ServerUpdates) (s : ServerFields) : ServerFields :=
  { hostname := u.hostname.getD s.hostname,
    organizationName := u.organizationName.getD s.organizationName,
    maxRam := u.maxRam.getD s.maxRam,
    cpuCores := u.cpuCores.getD s.cpuCores,
    hackDifficulty := u.hackDifficulty.getD s.hackDifficulty,
    minDifficulty := u.minDifficulty.getD s.minDifficulty,
    moneyAvailable := u.moneyAvailable.getD s.moneyAvailable,
    moneyMax := u.moneyMax.getD s.moneyMax,
    requiredHackingSkill := u.requiredHackingSkill.getD s.requiredHackingSkill,
    hasAdminRights := u.hasAdminRights.getD s.hasAdminRights,
    backdoorInstalled := u.backdoorInstalled.getD s.backdoorInstalled,
    purchasedByPlayer := u.purchasedByPlayer.getD s.purchasedByPlayer }

/-- FileStore.updateServer: if the AllServersSave section is null, return;
if the hostname has no record, return; otherwise Object.assign the updates
through to the record (the nested and flat legacy shapes share the same
write-through target). -/
def updateServer (st : Store) (hostname : String) (u : ServerUpdates) : Store :=
  match st.modifiedSave.allServersSave with
  | none => st
  | some serversData =>
    match lookupA hostname serversData with
    | none => st
    | some _ =>
      let srv1 := setA hostname (assignServer u) serversData
      { st with modifiedSave := { st.modifiedSave with allServersSave := some srv1 } }

/-- Partial company edit; none means the property is absent. -/
structure CompanyUpdates where
  favor : Option Int := none
  playerReputation : Option Int := none
deriving DecidableEq, Repr

/-- Object.assign of a partial company edit onto a company record. -/
def assignCompany (u : CompanyUpdates) (c : CompanyRec) : CompanyRec :=
  { favor := u.favor.getD c.favor,
    playerReputation := match u.playerReputation with
      | some v => some v
      | none => c.playerReputation }

/-- FileStore.updateCompany. Checks whether the edit is a revert to zero
values (each update field 0 or absent) for a company absent from the
baseline section; if so the working entry is deleted, otherwise the entry
is created at zero if missing and the updates are assigned onto it.
Property access on a null CompaniesSave throws, modelled by none. -/
def updateCompany (st : Store) (company : String) (u : CompanyUpdates) : Option Store := do
  let ocs ← st.originalSave.companiesSave
  let cs ← st.modifiedSave.companiesSave
  let isRevertingToZero :=
    (u.favor = some 0 ∨ u.favor = none) ∧
      (u.playerReputation = some 0 ∨ u.playerReputation = none)
  let notInOriginal := lookupA company ocs = none
  if isRevertingToZero ∧ notInOriginal then
    let cs1 := deleteA company cs
    some { st with modifiedSave := { st.modifiedSave with companiesSave := some cs1 } }
  else
    let cs1 := match lookupA company cs with
      | none => cs ++ [(company, { favor := 0, playerReputation := some 0 })]
      | some _ => cs
    let cs2 := setA company (assignCompany u) cs1
    some { st with modifiedSave := { st.modifiedSave with companiesSave := some cs2 } }

/-- Partial faction edit (Partial of the faction record fields the UI can
write); none means the property is absent from the updates object. -/
structure FactionUpdates where
  playerReputation : Option Int := none
  favor : Option Int := none
  alreadyInvited : Option Bool := none
  isMember : Option Bool := none
  isBanned : Option Bool := none
deriving DecidableEq, Repr

/-- updateFaction's per-key filtering for the boolean keys isMember,
alreadyInvited, isBanned: an explicit true is persisted only if the key
already existed in the original or current record; an explicit false is
persisted if it existed in the original, and otherwise deletes the key
from the record; an absent update leaves the field alone. uv is the update
value, ov the original record's field, tv the working record's field;
the result is the working record's field after the edit. -/
def applyBoolKey (uv : Option Bool) (ov tv : Option Bool) : Option Bool :=
  match uv with
  | none => tv
  | some true => if ov ≠ none ∨ tv ≠ none then some true else tv
  | some false => if ov ≠ none then some false else none

/-- updateFaction's per-key filtering for the numeric keys playerReputation
and favor: a zero value for a key absent from the original record deletes
the key; any other value is persisted. -/
def applyNumKey (uv : Option Int) (ov tv : Option Int) : Option Int :=
  match uv with
  | none => tv
  | some v => if v = 0 ∧ ov = none then none else some v

/-- The combined record edit of updateFaction: fold the filtered updates
into the working faction record (ov is the original record, tv the
working record). -/
def applyFactionRecordUpdates (u : FactionUpdates) (ov tv : FactionData) : FactionData :=
  { playerReputation := applyNumKey u.playerReputation ov.playerReputation tv.playerReputation,
    favor := applyNumKey u.favor ov.favor tv.favor,
    alreadyInvited := applyBoolKey u.alreadyInvited ov.alreadyInvited tv.alreadyInvited,
    isMember := applyBoolKey u.isMember ov.isMember tv.isMember,
    isBanned := applyBoolKey u.isBanned ov.isBanned tv.isBanned,
    augmentations := tv.augmentations }

/-- JS Array.prototype.indexOf returning none for -1. -/
def indexOfQ (x : String) : List String → Option Nat
  | [] => none
  | y :: ys => if y = x then some 0 else (indexOfQ x ys).map (fun i => i + 1)

/-- updateFaction's insertAtOriginalIndex helper: drop the item from the
list, then re-insert it at the index it held in the original list when
that index exists and is in range, appending otherwise. -/
def insertAtOriginalIndex (arr : List String) (item : String) (originalArr : List String) : List String :=
  match indexOfQ item originalArr with
  | none => arr.filter (fun f => f ≠ item) ++ [item]
  | some i =>
    if (arr.filter (fun f => f ≠ item)).length ≤ i then arr.filter (fun f => f ≠ item) ++ [item]
    else (arr.filter (fun f => f ≠ item)).take i ++ item :: (arr.filter (fun f => f ≠ item)).drop i

/-- JS Array.from(new Set(xs)): keep the first occurrence of each element,
in order; seen accumulates the elements already emitted. -/
def dedupFirstGo (seen : List String) : List String → List String
  | [] => []
  | x :: xs => if x ∈ seen then dedupFirstGo seen xs else x :: dedupFirstGo (x :: seen) xs

/-- JS Array.from(new Set(xs)). -/
def dedupFirst (xs : List String) : List String := dedupFirstGo [] xs

/-- The membership-list rewrite of updateFaction when updates.isMember is
present: no-op when the status is not actually changing; insertion uses
the stable-reinsertion helper against the baseline list, removal filters
the name out. -/
def applyMembershipEdit (origPlayer : Option Player) (faction : String) (m : Bool) (p : Player) : Player :=
  let playerFactions := p.factions.getD []
  let originalFactions := (origPlayer.bind Player.factions).getD []
  let currentlyMember := decide (faction ∈ playerFactions)
  if m = currentlyMember then p
  else if m then
    let inserted := insertAtOriginalIndex (dedupFirst playerFactions) faction originalFactions
    { p with factions := some inserted }
  else
    { p with factions := some (playerFactions.filter (fun f => f ≠ faction)) }

/-- The invitation-list rewrite of updateFaction when updates.alreadyInvited
is present: no-op when the status is not actually changing; the name is
inserted only when the edit grants an invitation without also granting
membership in the same call, and filtered out otherwise. -/
def applyInvitationEdit (origPlayer : Option Player) (faction : String) (isMemberUpdate : Option Bool)
    (inv : Bool) (p : Player) : Player :=
  let playerInvitations := p.factionInvitations.getD []
  let originalInvitations := (origPlayer.bind Player.factionInvitations).getD []
  let currentlyInvited := decide (faction ∈ playerInvitations)
  if inv = currentlyInvited then p
  else if inv ∧ isMemberUpdate ≠ some true then
    let inserted := insertAtOriginalIndex (dedupFirst playerInvitations) faction originalInvitations
    { p with factionInvitations := some inserted }
  else
    { p with factionInvitations := some (playerInvitations.filter (fun f => f ≠ faction)) }

/-- FileStore.updateFaction: mutate the faction record through the per-key
filter, then rewrite the player membership list if updates.isMember is
present, then the invitation list if updates.alreadyInvited is present.
none models the TypeError thrown when the faction has no record or a
needed section is null. -/
def updateFaction (st : Store) (faction : String) (u : FactionUpdates) : Option Store := do
  let fs ← st.modifiedSave.factionsSave
  let _ ← lookupA faction fs
  let ofs ← st.originalSave.factionsSave
  let originalTarget := (lookupA faction ofs).getD emptyFactionData
  let fs1 := setA faction (applyFactionRecordUpdates u originalTarget) fs
  let st1 := { st with modifiedSave := { st.modifiedSave with factionsSave := some fs1 } }
  let st2 ← match u.isMember with
    | none => some st1
    | some m => do
      let p ← st1.modifiedSave.playerSave
      let p1 := applyMembershipEdit st1.originalSave.playerSave faction m p
      some { st1 with modifiedSave := { st1.modifiedSave with playerSave := some p1 } }
  match u.alreadyInvited with
  | none => some st2
  | some inv => do
    let p ← st2.modifiedSave.playerSave
    let p2 := applyInvitationEdit st2.originalSave.playerSave faction u.isMember inv p
    some { st2 with modifiedSave := { st2.modifiedSave with playerSave := some p2 } }

/-- One row of the factions projection (the normalized faction view). -/
structure FactionView where
  name : String
  playerReputation : Int
  favor : Int
  alreadyInvited : Bool
  isMember : Bool
  isBanned : Bool
  augmentations : List String
deriving DecidableEq, Repr

/-- The per-entry normalization of the factions projection: membership and
invitation flags come from the player-level lists when those exist and
fall back to the legacy per-record booleans otherwise; numeric fields
default to zero. -/
def factionViewOf (p : Player) (name : String) (d : FactionData) : FactionView :=
  { name := name,
    playerReputation := d.playerReputation.getD 0,
    favor := d.favor.getD 0,
    alreadyInvited := match p.factionInvitations with
      | some l => decide (name ∈ l)
      | none => d.alreadyInvited.getD false,
    isMember := match p.factions with
      | some l => decide (name ∈ l)
      | none => d.isMember.getD false,
    isBanned := d.isBanned.getD false,
    augmentations := d.augmentations.getD [] }

/-- The factions projection sort order: descending player reputation
(JS stable sort with comparator repB - repA). -/
def factionRepLe (a b : String × FactionView) : Bool :=
  decide (b.2.playerReputation ≤ a.2.playerReputation)

/-- The factions projection over a player record and a factions section. -/
def parseFactionsData (p : Player) (fs : List (String × FactionData)) : List (String × FactionView) :=
  List.mergeSort (fs.map (fun e => (e.1, factionViewOf p e.1 e.2))) factionRepLe

/-- The factions projection over a container (FileStore.factions getter);
none models the TypeError thrown when either needed section is null. -/
def factionsProjection (s : SaveSections) : Option (List (String × FactionView)) := do
  let fs ← s.factionsSave
  let p ← s.playerSave
  pure (parseFactionsData p fs)

/-- The per-entry normalization of the servers projection: hostname falls
back to the record key when the field is empty (JS falsy); the remaining
fields are already concrete in the record model, so their ?? defaults are
identities. -/
def normalizeServer (hostname : String) (d : ServerFields) : ServerFields :=
  { d with hostname := if d.hostname = "" then hostname else d.hostname }

/-- The servers projection sort order: home first, then purchased servers,
then by name (localeCompare modelled as the default string order; no claim
depends on the tie order). -/
def serverOrderLe (a b : String × ServerFields) : Bool :=
  if a.1 = "home" then true
  else if b.1 = "home" then false
  else if a.2.purchasedByPlayer ∧ ¬b.2.purchasedByPlayer then true
  else if ¬a.2.purchasedByPlayer ∧ b.2.purchasedByPlayer then false
  else decide (a.1 ≤ b.1)

/-- The servers projection over a servers section (parseServersData). -/
def parseServersData (srv : List (String × ServerFields)) : List (String × ServerFields) :=
  List.mergeSort (srv.map (fun e => (e.1, normalizeServer e.1 e.2))) serverOrderLe

/-- The servers projection of the FileStore.servers getter: empty when the
AllServersSave section is null. -/
def serversProjectionData (s : SaveSections) : List (String × ServerFields) :=
  match s.allServersSave with
  | none => []
  | some srv => parseServersData srv

/-- The forEach body of the player-section component's syncPurchasedFlags:
flip one snapshot entry's record to membership of its hostname in the
given list when the snapshot flag disagrees with it. -/
def syncPurchasedFlagsStep (purchasedList : List String) (acc : Store)
    (e : String × ServerFields) : Store :=
  let shouldBePurchased := decide (e.1 ∈ purchasedList)
  if e.2.purchasedByPlayer ≠ shouldBePurchased then
    updateServer acc e.1 { purchasedByPlayer := some shouldBePurchased }
  else acc

/-- The player-section component's syncPurchasedFlags: walk the servers
projection snapshot and flip each record's purchased flag to membership of
its hostname in the given list whenever the two disagree. -/
def syncPurchasedFlags (st : Store) (purchasedList : List String) : Store :=
  (serversProjectionData st.modifiedSave).foldl (syncPurchasedFlagsStep purchasedList) st

/-- A store with the working player record replaced (the shape
player.updatePlayer produces). -/
def withWorkingPlayer (st : Store) (p : Player) : Store :=
  { st with modifiedSave := { st.modifiedSave with playerSave := some p } }

/-- player.updatePlayer restricted to the purchasedServers field (the only
player field the purchased-server handlers write). none models the
TypeError thrown when the PlayerSave section is null. -/
def setPurchasedServers (st : Store) (lst : List String) : Option Store := do
  let p ← st.modifiedSave.playerSave
  let p1 := { p with purchasedServers := lst }
  some { st with modifiedSave := { st.modifiedSave with playerSave := some p1 } }

/-- The hostnames of the servers projection, used by the add handler's
duplicate guard. -/
def knownServerHostnames (st : Store) : List String :=
  (serversProjectionData st.modifiedSave).map Prod.fst

/-- ASCII whitespace, for the character-list model of String.prototype.trim. -/
def isWsChar (c : Char) : Bool :=
  c = ' ' ∨ c = '\t' ∨ c = '\n' ∨ c = '\r'

/-- JS String.prototype.trim over the character list: drop leading and
trailing whitespace. -/
def strTrim (s : String) : String :=
  ⟨((s.data.dropWhile isWsChar).reverse.dropWhile isWsChar).reverse⟩

/-- JS String.prototype.toLowerCase restricted to ASCII letters (the only
characters the hostnames at issue contain). -/
def charLower (c : Char) : Char :=
  if 'A' ≤ c ∧ c ≤ 'Z' then Char.ofNat (c.toNat + 32) else c

/-- toLowerCase over the character list. -/
def strToLower (s : String) : String :=
  ⟨s.data.map charLower⟩

/-- The player-section component's handleAddPurchased: refuse empty names,
refuse when the list already has 25 entries, refuse names that match an
existing server record case-insensitively; otherwise append the trimmed
name to the purchased list and re-sync the purchased flags. -/
def handleAddPurchased (st : Store) (newServerName : String) : Option Store := do
  let p ← st.modifiedSave.playerSave
  let purchased := p.purchasedServers
  let trimmed := strTrim newServerName
  if trimmed = "" then some st
  else if 25 ≤ purchased.length then some st
  else if (knownServerHostnames st).any (fun host => strToLower host = strToLower trimmed) then some st
  else do
    let next := purchased ++ [trimmed]
    let st1 ← setPurchasedServers st next
    some (syncPurchasedFlags st1 next)

/-- The player-section component's handleRemovePurchased: filter the
hostname out of the purchased list and re-sync the purchased flags. -/
def handleRemovePurchased (st : Store) (hostname : String) : Option Store := do
  let p ← st.modifiedSave.playerSave
  let next := p.purchasedServers.filter (fun host => host ≠ hostname)
  let st1 ← setPurchasedServers st next
  some (syncPurchasedFlags st1 next)

/-- Augmentation status of the editor ("none" | "queued" | "installed"). -/
inductive AugStatus
  | none
  | queued
  | installed
deriving DecidableEq, Repr

/-- One static-catalog augmentation record (AUGMENTATION_DATA value):
display name and optional prerequisite key list. -/
structure AugInfo where
  name : String
  prereqs : Option (List String)
deriving DecidableEq, Repr

/-- One entry of the prerequisite-cascade impact report. -/
structure AffectedAug where
  name : String
  currentStatus : AugStatus
  newStatus : AugStatus
deriving DecidableEq, Repr

/-- JS augName.replace of every whitespace run with the empty string. -/
def stripSpaces (s : String) : String :=
  String.mk (s.toList.filter (fun c => ¬c.isWhitespace))

/-- JS String.prototype.includes on char lists (contiguous substring). -/
def listIsInfixB (pat : List Char) : List Char → Bool
  | [] => decide (pat = [])
  | c :: rest => pat.isPrefixOf (c :: rest) || listIsInfixB pat rest

/-- calculateImpact's resolution of the edited augmentation to its catalog
key: look the space-stripped name up as a key, falling back to a search by
display name; then recover the first key holding that record (JS reference
equality modelled structurally; catalog records are pairwise distinct). -/
def resolveAugKey (augData : List (String × AugInfo)) (augName : String) : Option String :=
  let augInfo := match lookupA (stripSpaces augName) augData with
    | some info => some info
    | none => (augData.find? (fun (kv : String × AugInfo) => kv.2.name = augName)).map
        (fun (kv : String × AugInfo) => kv.2)
  match augInfo with
  | none => none
  | some info => (augData.find? (fun (kv : String × AugInfo) => kv.2 = info)).map
      (fun (kv : String × AugInfo) => kv.1)

/-- calculateImpact: for a demotion or removal of augName, list every
catalog augmentation that names it as a prerequisite and whose current
status the new status would invalidate (installed dependent when the
prerequisite drops below installed; queued dependent when the prerequisite
is removed). allAugs is ALL_AUGMENTATIONS, augData is AUGMENTATION_DATA. -/
def calculateImpact (allAugs : List String) (augData : List (String × AugInfo))
    (p : Player) (augName : String) (newStatus : AugStatus) : List AffectedAug :=
  if newStatus = AugStatus.installed then []
  else
    let installedAugs := p.augmentations
    let queuedAugs := p.queuedAugmentations
    let augKey := resolveAugKey augData augName
    let dependentAugs := allAugs.filter (fun other =>
      if other = augName then false
      else if listIsInfixB "NeuroFlux".toList other.toList then false
      else match lookupA other augData with
        | Option.none => false
        | some otherInfo =>
          match otherInfo.prereqs with
          | Option.none => false
          | some prereqs => prereqs.any (fun pr => augKey = some pr ∨ pr = augName))
    dependentAugs.filterMap (fun dep =>
      let depInfo := lookupA dep augData
      let depDisplayName := (depInfo.map AugInfo.name).getD dep
      let isInstalled := installedAugs.any (fun a => a.name = dep ∨ a.name = depDisplayName)
      let isQueued := queuedAugs.any (fun a => a.name = dep ∨ a.name = depDisplayName)
      if isInstalled then
        if newStatus = AugStatus.queued then
          some { name := depDisplayName, currentStatus := AugStatus.installed,
                 newStatus := AugStatus.queued }
        else if newStatus = AugStatus.none then
          some { name := depDisplayName, currentStatus := AugStatus.installed,
                 newStatus := AugStatus.none }
        else Option.none
      else if isQueued ∧ newStatus = AugStatus.none then
        some { name := depDisplayName, currentStatus := AugStatus.queued,
               newStatus := AugStatus.none }
      else Option.none)

/-- Element of an augmentation array at a known-valid index. -/
def augAt (xs : List Aug) (i : Nat) : Aug :=
  xs.getD i { name := "", level := 0 }

/-- One confirmed-cascade step of applyChange: downgrade an installed
dependent to queued, or remove the dependent from the array matching its
current status. -/
def cascadeStep (pair : List Aug × List Aug) (affected : AffectedAug) : List Aug × List Aug :=
  let installedAugs := pair.1
  let queuedAugs := pair.2
  let depInstalledIdx := installedAugs.findIdx? (fun a => a.name = affected.name)
  let depQueuedIdx := queuedAugs.findIdx? (fun a => a.name = affected.name)
  match affected.currentStatus, depInstalledIdx with
  | AugStatus.installed, some i =>
    if affected.newStatus = AugStatus.queued then
      (installedAugs.eraseIdx i, queuedAugs ++ [augAt installedAugs i])
    else if affected.newStatus = AugStatus.none then
      (installedAugs.eraseIdx i, queuedAugs)
    else pair
  | _, _ =>
    match affected.currentStatus, depQueuedIdx with
    | AugStatus.queued, some j =>
      if affected.newStatus = AugStatus.none then (installedAugs, queuedAugs.eraseIdx j)
      else pair
    | _, _ => pair

/-- The mutation body of applyChange (reached when no confirmation dialog
interposes): reset to the original arrays when the edit restores the
original status and level and nothing else differs in array lengths;
otherwise rebuild the two arrays with the edit, then apply the confirmed
cascade steps as part of the same batch. -/
def applyChangeBody (orig : Player) (p : Player) (augName : String) (status : AugStatus)
    (level : Int) (skipConfirmation : Bool) (affectedAugs : List AffectedAug) : Player :=
  let originalInstalled := orig.augmentations.find? (fun a => a.name = augName)
  let originalQueued := orig.queuedAugmentations.find? (fun a => a.name = augName)
  let originalStatus :=
    if originalInstalled.isSome then AugStatus.installed
    else if originalQueued.isSome then AugStatus.queued
    else AugStatus.none
  let originalLevel := match originalInstalled with
    | some a => a.level
    | Option.none => match originalQueued with
      | some a => a.level
      | Option.none => 0
  let isResettingToOriginal := status = originalStatus ∧ level = originalLevel
  let currentMatchesOriginalExceptThisAug :=
    (p.augmentations.filter (fun a => a.name ≠ augName)).length
        = (orig.augmentations.filter (fun a => a.name ≠ augName)).length ∧
      (p.queuedAugmentations.filter (fun a => a.name ≠ augName)).length
        = (orig.queuedAugmentations.filter (fun a => a.name ≠ augName)).length
  if isResettingToOriginal ∧ currentMatchesOriginalExceptThisAug then
    { p with augmentations := orig.augmentations,
             queuedAugmentations := orig.queuedAugmentations }
  else
    let installedAugs := p.augmentations
    let queuedAugs := p.queuedAugmentations
    let installedIndex := installedAugs.findIdx? (fun a => a.name = augName)
    let queuedIndex := queuedAugs.findIdx? (fun a => a.name = augName)
    let pair :=
      if status = AugStatus.installed ∧ installedIndex.isSome then
        (installedAugs.set (installedIndex.getD 0) { name := augName, level := level },
         match queuedIndex with
         | some j => queuedAugs.eraseIdx j
         | Option.none => queuedAugs)
      else if status = AugStatus.queued ∧ queuedIndex.isSome then
        ((match installedIndex with
          | some i => installedAugs.eraseIdx i
          | Option.none => installedAugs),
         queuedAugs.set (queuedIndex.getD 0) { name := augName, level := level })
      else
        let ia := match installedIndex with
          | some i => installedAugs.eraseIdx i
          | Option.none => installedAugs
        let qa := match queuedIndex with
          | some j => queuedAugs.eraseIdx j
          | Option.none => queuedAugs
        if status = AugStatus.installed then (ia ++ [{ name := augName, level := level }], qa)
        else if status = AugStatus.queued then (ia, qa ++ [{ name := augName, level := level }])
        else (ia, qa)
    let pair2 :=
      if skipConfirmation ∧ affectedAugs ≠ [] then affectedAugs.foldl cascadeStep pair
      else pair
    { p with augmentations := pair2.1, queuedAugmentations := pair2.2 }

/-- The pending-confirmation dialog state of the augmentations section. -/
structure ConfirmDialogState where
  augName : String
  newStatus : AugStatus
  newLevel : Int
  affectedAugmentations : List AffectedAug
deriving DecidableEq, Repr

/-- The augmentations-section editor state: the working player arrays plus
the confirmation-dialog state (the stored cancel callback only reverts
row-local UI form state and never touches the working container, so it is
not part of the model). -/
structure AugEditorState where
  player : Player
  confirmDialog : Option ConfirmDialogState
deriving DecidableEq, Repr

/-- applyChange: compute the cascade impact; when it is non-empty and the
change has not been confirmed, only record the pending confirmation and
return; otherwise run the mutation body. -/
def applyChange (allAugs : List String) (augData : List (String × AugInfo)) (orig : Player)
    (st : AugEditorState) (augName : String) (status : AugStatus) (level : Int)
    (skipConfirmation : Bool) : AugEditorState :=
  let affectedAugs := calculateImpact allAugs augData st.player augName status
  if affectedAugs ≠ [] ∧ ¬skipConfirmation then
    { st with confirmDialog := some { augName := augName, newStatus := status,
                                      newLevel := level, affectedAugmentations := affectedAugs } }
  else
    { st with player := applyChangeBody orig st.player augName status level skipConfirmation affectedAugs }

/-- handleConfirmChange: re-run applyChange with confirmation granted, then
dismiss the dialog. -/
def handleConfirmChange (allAugs : List String) (augData : List (String × AugInfo))
    (orig : Player) (st : AugEditorState) : AugEditorState :=
  match st.confirmDialog with
  | Option.none => st
  | some cd =>
    let st1 := applyChange allAugs augData orig st cd.augName cd.newStatus cd.newLevel true
    { st1 with confirmDialog := Option.none }

/-- handleCancelChange: dismiss the dialog (the cancel callback reverts
only row-local UI state). -/
def handleCancelChange (st : AugEditorState) : AugEditorState :=
  { st with confirmDialog := Option.none }

/-- Maximum NeuroFlux level among an augmentation array (the code's
filter-then-reduce with Math.max; the trailing JS || fallback is an
identity here because the fold result is always at least its initial
value, which is non-negative on both call sites). -/
def nfgMaxLevel (xs : List Aug) (init : Int) : Int :=
  (xs.filter (fun a => a.name = neurofluxName)).foldl (fun m a => max m a.level) init

/-- The rebuild loop shared by the two arrays of onUpdateNeuroFlux: copy
non-NeuroFlux records in order; at the first NeuroFlux record, emit the
replacement block if the insertion condition holds; skip every other
NeuroFlux record; append the block after the loop if the condition holds
and no NeuroFlux record was seen. inserted is the neuroFluxInserted flag. -/
def rebuildAugs (cond : Bool) (block : List Aug) : List Aug → Bool → List Aug
  | [], inserted => if ¬inserted ∧ cond then block else []
  | a :: rest, inserted =>
    if a.name = neurofluxName then
      if ¬inserted ∧ cond then block ++ rebuildAugs cond block rest true
      else rebuildAugs cond block rest inserted
    else
      a :: rebuildAugs cond block rest inserted

/-- The closed integer range lo..hi as a list (empty when hi < lo). -/
def intRangeClosed (lo hi : Int) : List Int :=
  (List.range (hi + 1 - lo).toNat).map (fun i => lo + (i : Int))

/-- The queued-array replacement block of onUpdateNeuroFlux: one record per
level from installedLevel+1 through queuedLevel. -/
def nfgQueuedBlock (installedLevel queuedLevel : Int) : List Aug :=
  (intRangeClosed (installedLevel + 1) queuedLevel).map
    (fun l => { name := neurofluxName, level := l })

/-- onUpdateNeuroFlux: when the requested pair equals the baseline's
(maxInstalled, maxQueued) NeuroFlux levels, replace both arrays with the
baseline arrays verbatim; otherwise rebuild the installed array with a
single record at installedLevel (none when 0) and the queued array with
one record per level from installedLevel+1 through queuedLevel, splicing
each block in at the position of the first NeuroFlux record. orig is
player.originalData, cur is player.data. -/
def onUpdateNeuroFlux (orig cur : Player) (installedLevel queuedLevel : Int) : Player :=
  let originalInstalledLevel := nfgMaxLevel orig.augmentations 0
  let originalQueuedLevel := nfgMaxLevel orig.queuedAugmentations originalInstalledLevel
  if installedLevel = originalInstalledLevel ∧ queuedLevel = originalQueuedLevel then
    { cur with augmentations := orig.augmentations,
               queuedAugmentations := orig.queuedAugmentations }
  else
    let installedAugs := rebuildAugs (decide (0 < installedLevel))
      [{ name := neurofluxName, level := installedLevel }] cur.augmentations false
    let queuedAugs := rebuildAugs (decide (installedLevel < queuedLevel))
      (nfgQueuedBlock installedLevel queuedLevel) cur.queuedAugmentations false
    { cur with augmentations := installedAugs, queuedAugmentations := queuedAugs }

/-- Reference form of the claim's splice requirement (written from the
specification's words, for comparison with the rebuild loop): the block
replaces the NeuroFlux records at the position of the first one, and is
appended when there is none. -/
def spliceAtFirstNFG (src block : List Aug) : List Aug :=
  match src.findIdx? (fun a => a.name = neurofluxName) with
  | none => src ++ block
  | some i => src.take i ++ block ++ (src.drop i).filter (fun a => a.name ≠ neurofluxName)

/-- Drop a literal prefix from a char list, returning the remainder on
success. -/
def dropPrefixQ : List Char → List Char → Option (List Char)
  | [], cs => some cs
  | _ :: _, [] => none
  | p :: ps, c :: cs => if c = p then dropPrefixQ ps cs else none

/-- Maximal leading digit run of a char list (greedy \d+ followed by a
non-digit literal backtracks to exactly this split). -/
def takeDigits : List Char → List Char × List Char
  | [] => ([], [])
  | c :: rest =>
    if c.isDigit then
      let p := takeDigits rest
      (c :: p.1, p.2)
    else ([], c :: rest)

/-- Does the remainder begin with zero or more "-H4CKeD" repetitions
followed by the literal ".json"? This is the tail of the filename regex
after the lazy identifier group. -/
def tailKMatch : List Char → Bool
  | '.' :: 'j' :: 's' :: 'o' :: 'n' :: _ => true
  | '-' :: 'H' :: '4' :: 'C' :: 'K' :: 'e' :: 'D' :: rest => tailKMatch rest
  | _ => false

/-- Lazy match of the identifier group body: the shortest non-empty prefix
whose remainder satisfies tailKMatch. -/
def lazyCoreGo (core : List Char) : List Char → Option (List Char)
  | [] => if tailKMatch [] then some core else none
  | d :: rest1 =>
    if tailKMatch (d :: rest1) then some core
    else lazyCoreGo (core ++ [d]) rest1

/-- The identifier group body (at least one character, lazily extended). -/
def lazyCore : List Char → Option (List Char)
  | [] => none
  | c :: rest => lazyCoreGo [c] rest

/-- Match of the downloadFile filename regex at the start of the char list,
returning the ts and bn capture groups. -/
def matchSaveNameAt (cs : List Char) : Option (List Char × List Char) :=
  match dropPrefixQ "bitburnerSave_".toList cs with
  | none => none
  | some r1 =>
    let p := takeDigits r1
    if p.1 = [] then none
    else match p.2 with
      | '_' :: r3 =>
        (match dropPrefixQ "BN".toList r3 with
         | none => none
         | some r4 =>
           match lazyCore r4 with
           | none => none
           | some core => some (p.1, 'B' :: 'N' :: core))
      | _ => none

/-- Leftmost match of the downloadFile filename regex (unanchored search,
as JS String.prototype.match performs). -/
def searchSaveName : List Char → Option (List Char × List Char)
  | [] => none
  | c :: rest =>
    match matchSaveNameAt (c :: rest) with
    | some g => some g
    | none => searchSaveName rest

/-- The filename regex match of downloadFile, with its two named capture
groups (ts digits, bn identifier); none is the null match result. -/
def fileNameMatch (fileName : String) : Option (String × String) :=
  (searchSaveName fileName.toList).map (fun g => (String.mk g.1, String.mk g.2))

/-- The download attribute computed by downloadFile: timestamp in seconds
plus the identifier group of the original filename. The code reads
match.groups on the match result without a null check, so a filename the
regex does not match throws a TypeError, modelled by none; the recorded
BN1x0 fallback applies only to an undefined group of a successful match,
and the bn group is mandatory, so that fallback is unreachable. -/
def downloadName (fileName : String) (nowSeconds : Int) (isGzipped : Bool) : Option String :=
  match fileNameMatch fileName with
  | none => none
  | some g =>
    let fileExtension := if isGzipped then ".json.gz" else ".json"
    some ("bitburnerSave_" ++ toString nowSeconds ++ "_" ++ g.2 ++ "-H4CKeD" ++ fileExtension)

/-- A minimal player record used to build concrete test containers. -/
def samplePlayer : Player :=
  { exploits := [], augmentations := [], queuedAugmentations := [],
    factions := some [], factionInvitations := some [],
    purchasedServers := [], jobs := [] }

/-- A container with every section absent. -/
def emptySections : SaveSections :=
  { playerSave := none, factionsSave := none, allServersSave := none,
    companiesSave := none, aliasesSave := none, globalAliasesSave := none,
    stockMarketSave := none, settingsSave := none, versionSave := none,
    allGangsSave := none, lastExportBonus := none, staneksGiftSave := none,
    goSave := none, infiltrationsSave := none }

/-- A minimal server record used to build concrete test containers. -/
def sampleServer (host : String) (purchased : Bool) : ServerFields :=
  { hostname := host, organizationName := "", maxRam := 8, cpuCores := 1,
    hackDifficulty := 0, minDifficulty := 0, moneyAvailable := 0, moneyMax := 0,
    requiredHackingSkill := 0, hasAdminRights := false, backdoorInstalled := false,
    purchasedByPlayer := purchased }

/-- C1 counterexample input: a valid wire container whose player lacks the
EditSaveFile marker and whose companies section holds a zero-valued
company. -/
def c1wire : RawSave :=
  { ctor := saveObjectCtor,
    data := { emptySections with
      playerSave := some samplePlayer,
      companiesSave := some [("Zero Corp", { favor := 0, playerReputation := some 0 })] } }

/-- C1 witness input: a valid wire container already carrying the marker
and holding no zero-valued company. -/
def c1wireGood : RawSave :=
  { ctor := saveObjectCtor,
    data := { emptySections with
      playerSave := some { samplePlayer with exploits := [editSaveFileExploit] },
      companiesSave := some [("Acme", { favor := 5, playerReputation := some 3 })] } }

/-- C2 counterexample input: a baseline whose installed array holds two
NeuroFlux records (maximum level 5) and whose queued array holds records
at levels 6, 7 and 8. -/
def c2orig : Player :=
  { samplePlayer with
    augmentations := [{ name := "NeuroFlux Governor", level := 3 },
                      { name := "NeuroFlux Governor", level := 5 }],
    queuedAugmentations := [{ name := "NeuroFlux Governor", level := 6 },
                            { name := "NeuroFlux Governor", level := 7 },
                            { name := "NeuroFlux Governor", level := 8 }] }

/-- C2 witness input: a baseline at NeuroFlux levels (3, 4) and a working
player whose arrays mix NeuroFlux and ordinary records. -/
def c2cur : Player :=
  { samplePlayer with
    augmentations := [{ name := "Aug A", level := 1 },
                      { name := "NeuroFlux Governor", level := 2 },
                      { name := "Aug B", level := 1 }],
    queuedAugmentations := [{ name := "Aug C", level := 1 }] }

/-- C2 witness baseline: NeuroFlux levels (3, 4). -/
def c2origW : Player :=
  { samplePlayer with
    augmentations := [{ name := "NeuroFlux Governor", level := 3 }],
    queuedAugmentations := [{ name := "NeuroFlux Governor", level := 4 }] }

/-- C3 failing input: a valid wire container whose player exploit list is
empty. -/
def c3wire : RawSave :=
  { ctor := saveObjectCtor,
    data := { emptySections with playerSave := some samplePlayer } }

/-- C4 counterexample store (deletion direction): the working companies
section holds a company at favor 5 that is absent from the baseline. -/
def c4storeDel : Store :=
  { originalSave := { emptySections with companiesSave := some [] },
    modifiedSave := { emptySections with
      companiesSave := some [("Acme", { favor := 5, playerReputation := some 3 })] } }

/-- C4 counterexample store (export direction): a company pre-existing in
the baseline at reputation 0 and favor 0, whose working entry an edit has
set back to explicit zeros. -/
def c4storeExp : Store :=
  { originalSave := { emptySections with
      companiesSave := some [("Beta Inc", { favor := 0, playerReputation := some 0 })] },
    modifiedSave := { emptySections with
      playerSave := some samplePlayer,
      companiesSave := some [("Beta Inc", { favor := 0, playerReputation := some 0 })] } }

/-- C5 counterexample store: faction A has a record, the player holds an
invitation to A and no memberships. -/
def c5store : Store :=
  let s := { emptySections with
    playerSave := some { samplePlayer with factionInvitations := some ["A"] },
    factionsSave := some [("A", emptyFactionData)] }
  { originalSave := s, modifiedSave := s }

/-- C6 witness store: baseline and working player both hold the membership
list [f1, f2, f3]; f1 and f2 have faction records. -/
def c6store : Store :=
  let s := { emptySections with
    playerSave := some { samplePlayer with factions := some ["f1", "f2", "f3"] },
    factionsSave := some [("f1", emptyFactionData), ("f2", emptyFactionData),
                          ("g1", emptyFactionData)] }
  { originalSave := s, modifiedSave := s }

/-- C7 store: one unpurchased server record "foo" and an empty purchased
list. -/
def c7store : Store :=
  let base := { emptySections with
    playerSave := some samplePlayer,
    allServersSave := some [("foo", sampleServer "foo" false)] }
  { originalSave := base, modifiedSave := base }

/-- C8 witness catalog: AugB requires AugA. -/
def c8augData : List (String × AugInfo) :=
  [("AugA", { name := "AugA", prereqs := some [] }),
   ("AugB", { name := "AugB", prereqs := some ["AugA"] })]

/-- C8 witness catalog key list (ALL_AUGMENTATIONS). -/
def c8allAugs : List String := ["AugA", "AugB"]

/-- C8 witness editor state: AugA and its dependent AugB are installed, no
dialog pending. -/
def c8state : AugEditorState :=
  { player := { samplePlayer with
      augmentations := [{ name := "AugA", level := 1 }, { name := "AugB", level := 1 }] },
    confirmDialog := none }

/-- C10 witness store: a servers section without the hostname "ghost". -/
def c10store : Store :=
  let base := { emptySections with
    playerSave := some samplePlayer,
    allServersSave := some [("home", sampleServer "home" false)] }
  { originalSave := base, modifiedSave := base }

/-! Helper lemmas about the association-list and list primitives. -/

theorem lookupA_setA_self (k : String) (f : α → α) :
    ∀ l : List (String × α), lookupA k (setA k f l) = (lookupA k l).map f := by
  intro l
  induction l with
  | nil => simp [lookupA, setA]
  | cons e rest ih =>
    obtain ⟨k', v⟩ := e
    by_cases hk : k' = k
    · simp [lookupA, setA, hk]
    · simp [lookupA, setA, hk, ih]

theorem lookupA_setA_ne (k k' : String) (f : α → α) (hne : k' ≠ k) :
    ∀ l : List (String × α), lookupA k' (setA k f l) = lookupA k' l := by
  intro l
  induction l with
  | nil => simp [lookupA, setA]
  | cons e rest ih =>
    obtain ⟨k0, v⟩ := e
    by_cases h0 : k0 = k
    · have hk : ¬(k = k') := fun h => hne h.symm
      simp [lookupA, setA, h0, hk]
    · simp [lookupA, setA, h0, ih]

theorem lookupA_eq_none_iff (k : String) (l : List (String × α)) :
    lookupA k l = none ↔ k ∉ l.map Prod.fst := by
  induction l with
  | nil => simp [lookupA]
  | cons e rest ih =>
    obtain ⟨k0, v⟩ := e
    by_cases h0 : k0 = k
    · simp [lookupA, h0]
    · simp [lookupA, h0, ih, Ne.symm h0]

theorem lookupA_of_mem_nodup (k : String) (v : α) (l : List (String × α))
    (hnd : (l.map Prod.fst).Nodup) (hm : (k, v) ∈ l) : lookupA k l = some v := by
  induction l with
  | nil => cases hm
  | cons e rest ih =>
    obtain ⟨k0, v0⟩ := e
    simp only [List.map_cons, List.nodup_cons] at hnd
    rcases List.mem_cons.mp hm with h | h
    · cases h
      simp [lookupA]
    · have hk0 : k0 ≠ k := by
        intro hk
        subst hk
        exact hnd.1 (List.mem_map.mpr ⟨(k0, v), h, rfl⟩)
      simp [lookupA, hk0, ih hnd.2 h]

theorem setA_map_fst (k : String) (f : α → α) :
    ∀ l : List (String × α), (setA k f l).map Prod.fst = l.map Prod.fst := by
  intro l
  induction l with
  | nil => rfl
  | cons e rest ih =>
    obtain ⟨k0, v⟩ := e
    by_cases h0 : k0 = k
    · simp [setA, h0]
    · simp [setA, h0, ih]

theorem indexOfQ_eq_none_of_not_mem (f : String) :
    ∀ L : List String, f ∉ L → indexOfQ f L = none := by
  intro L
  induction L with
  | nil => intro; rfl
  | cons a t ih =>
    intro hm
    have ha : a ≠ f := fun h => hm (h ▸ List.mem_cons_self a t)
    have ht : f ∉ t := fun h => hm (List.mem_cons_of_mem a h)
    simp [indexOfQ, ha, ih ht]

theorem indexOfQ_isSome_of_mem (f : String) :
    ∀ L : List String, f ∈ L → (indexOfQ f L).isSome := by
  intro L
  induction L with
  | nil => intro h; cases h
  | cons a t ih =>
    intro hm
    by_cases ha : a = f
    · simp [indexOfQ, ha]
    · have ht : f ∈ t := by
        rcases List.mem_cons.mp hm with h | h
        · exact absurd h.symm ha
        · exact h
      simp [indexOfQ, ha]
      exact ih ht

theorem dedupFirstGo_of_nodup :
    ∀ (L seen : List String), L.Nodup → (∀ x ∈ L, x ∉ seen) → dedupFirstGo seen L = L := by
  intro L
  induction L with
  | nil => intro seen _ _; rfl
  | cons a t ih =>
    intro seen hnd hdis
    have ha : a ∉ seen := hdis a (List.mem_cons_self a t)
    have hnd' := List.nodup_cons.mp hnd
    have hdis' : ∀ x ∈ t, x ∉ a :: seen := by
      intro x hx
      simp only [List.mem_cons, not_or]
      exact ⟨fun h => hnd'.1 (h ▸ hx), hdis x (List.mem_cons_of_mem a hx)⟩
    simp [dedupFirstGo, ha, ih (a :: seen) hnd'.2 hdis']

theorem dedupFirst_of_nodup (L : List String) (hnd : L.Nodup) : dedupFirst L = L :=
  dedupFirstGo_of_nodup L [] hnd (by intro x _; simp)

theorem filter_ne_of_not_mem (f : String) (L : List String) (hm : f ∉ L) :
    L.filter (fun x => x ≠ f) = L := by
  apply List.filter_eq_self.mpr
  intro a ha
  simp only [ne_eq, decide_eq_true_eq]
  intro h
  exact hm (h ▸ ha)

theorem filter_ne_idem (f : String) (L : List String) :
    (L.filter (fun x => x ≠ f)).filter (fun x => x ≠ f) = L.filter (fun x => x ≠ f) := by
  apply List.filter_eq_self.mpr
  intro a ha
  exact (List.mem_filter.mp ha).2

theorem insert_take_drop (f : String) :
    ∀ (L : List String) (i : Nat), L.Nodup → indexOfQ f L = some i →
      (L.filter (fun x => x ≠ f)).take i ++ f :: (L.filter (fun x => x ≠ f)).drop i = L := by
  intro L
  induction L with
  | nil => intro i _ h; cases h
  | cons a t ih =>
    intro i hnd hidx
    have hnd' := List.nodup_cons.mp hnd
    by_cases ha : a = f
    · subst ha
      have hi0 : i = 0 := by
        simp [indexOfQ] at hidx
        omega
      subst hi0
      have hft : a ∉ t := hnd'.1
      have h1 : (a :: t).filter (fun x => x ≠ a) = t.filter (fun x => x ≠ a) := by
        simp [List.filter_cons]
      rw [h1, filter_ne_of_not_mem a t hft]
      simp
    · simp only [indexOfQ, if_neg ha] at hidx
      rcases Option.map_eq_some'.mp hidx with ⟨j, hj, hji⟩
      subst hji
      have hfil : (a :: t).filter (fun x => x ≠ f) = a :: t.filter (fun x => x ≠ f) := by
        simp [List.filter_cons, ha]
      rw [hfil]
      simp only [List.take_succ_cons, List.drop_succ_cons, List.cons_append]
      rw [ih j hnd'.2 hj]

theorem insertAtOriginalIndex_some (arr : List String) (item : String) (origL : List String)
    (i : Nat) (hi : indexOfQ item origL = some i) :
    insertAtOriginalIndex arr item origL =
      if (arr.filter (fun f => f ≠ item)).length ≤ i then
        arr.filter (fun f => f ≠ item) ++ [item]
      else
        (arr.filter (fun f => f ≠ item)).take i ++ item :: (arr.filter (fun f => f ≠ item)).drop i := by
  unfold insertAtOriginalIndex
  rw [hi]

theorem insertAtOriginalIndex_none (arr : List String) (item : String) (origL : List String)
    (hi : indexOfQ item origL = none) :
    insertAtOriginalIndex arr item origL = arr.filter (fun f => f ≠ item) ++ [item] := by
  unfold insertAtOriginalIndex
  rw [hi]

theorem insertAtOriginalIndex_restore (f : String) (L : List String)
    (hnd : L.Nodup) (hf : f ∈ L) :
    insertAtOriginalIndex (L.filter (fun x => x ≠ f)) f L = L := by
  rcases Option.isSome_iff_exists.mp (indexOfQ_isSome_of_mem f L hf) with ⟨i, hi⟩
  rw [insertAtOriginalIndex_some _ f L i hi, filter_ne_idem]
  by_cases hlen : (L.filter (fun x => x ≠ f)).length ≤ i
  · rw [if_pos hlen]
    have h1 := insert_take_drop f L i hnd hi
    rw [List.take_of_length_le hlen, List.drop_of_length_le hlen] at h1
    simpa using h1
  · rw [if_neg hlen]
    exact insert_take_drop f L i hnd hi

theorem insertAtOriginalIndex_append (f : String) (arr L : List String)
    (hfa : f ∉ arr) (hfL : f ∉ L) :
    insertAtOriginalIndex arr f L = arr ++ [f] := by
  rw [insertAtOriginalIndex_none arr f L (indexOfQ_eq_none_of_not_mem f L hfL),
    filter_ne_of_not_mem f arr hfa]

/-! Helper lemmas about the NeuroFlux rebuild loop. -/

theorem rebuildAugs_inserted (cond : Bool) (block : List Aug) :
    ∀ src : List Aug, rebuildAugs cond block src true
      = src.filter (fun a => a.name ≠ neurofluxName) := by
  intro src
  induction src with
  | nil => simp [rebuildAugs]
  | cons a rest ih =>
    by_cases ha : a.name = neurofluxName
    · simp [rebuildAugs, ha, ih]
    · simp [rebuildAugs, ha, ih]

theorem rebuildAugs_cond_false (block : List Aug) :
    ∀ (src : List Aug) (inserted : Bool), rebuildAugs false block src inserted
      = src.filter (fun a => a.name ≠ neurofluxName) := by
  intro src
  induction src with
  | nil => intro inserted; simp [rebuildAugs]
  | cons a rest ih =>
    intro inserted
    by_cases ha : a.name = neurofluxName
    · simp [rebuildAugs, ha, ih]
    · simp [rebuildAugs, ha, ih]

theorem spliceAtFirstNFG_nil (block : List Aug) : spliceAtFirstNFG [] block = block := by
  simp [spliceAtFirstNFG]

theorem spliceAtFirstNFG_cons_nfg (a : Aug) (src block : List Aug)
    (ha : a.name = neurofluxName) :
    spliceAtFirstNFG (a :: src) block
      = block ++ src.filter (fun x => x.name ≠ neurofluxName) := by
  unfold spliceAtFirstNFG
  rw [List.findIdx?_cons]
  simp [ha, List.filter_cons]

theorem spliceAtFirstNFG_cons_other (a : Aug) (src block : List Aug)
    (ha : ¬(a.name = neurofluxName)) :
    spliceAtFirstNFG (a :: src) block = a :: spliceAtFirstNFG src block := by
  unfold spliceAtFirstNFG
  rw [List.findIdx?_cons]
  cases h : src.findIdx? (fun x => decide (x.name = neurofluxName)) with
  | none => simp [ha, h, List.filter_cons]
  | some i => simp [ha, h, List.filter_cons]

theorem rebuildAugs_eq_splice (block : List Aug) :
    ∀ src : List Aug, rebuildAugs true block src false = spliceAtFirstNFG src block := by
  intro src
  induction src with
  | nil => simp [rebuildAugs, spliceAtFirstNFG_nil]
  | cons a rest ih =>
    by_cases ha : a.name = neurofluxName
    · rw [spliceAtFirstNFG_cons_nfg a rest block ha]
      simp [rebuildAugs, ha, rebuildAugs_inserted]
    · rw [spliceAtFirstNFG_cons_other a rest block ha]
      simp [rebuildAugs, ha, ih]

theorem filterNe_filterEq_nil :
    ∀ xs : List Aug,
      (xs.filter (fun a => a.name ≠ neurofluxName)).filter (fun a => a.name = neurofluxName) = [] := by
  intro xs
  induction xs with
  | nil => rfl
  | cons a rest ih =>
    by_cases ha : a.name = neurofluxName
    · simp [List.filter_cons, ha, ih]
    · simp [List.filter_cons, ha, ih]

theorem filterNe_idem_aug (xs : List Aug) :
    (xs.filter (fun a => a.name ≠ neurofluxName)).filter (fun a => a.name ≠ neurofluxName)
      = xs.filter (fun a => a.name ≠ neurofluxName) := by
  apply List.filter_eq_self.mpr
  intro a ha
  exact (List.mem_filter.mp ha).2

theorem spliceAtFirstNFG_filter_eq (src block : List Aug)
    (hb : ∀ a ∈ block, a.name = neurofluxName) :
    (spliceAtFirstNFG src block).filter (fun a => a.name = neurofluxName) = block := by
  induction src with
  | nil =>
    rw [spliceAtFirstNFG_nil]
    apply List.filter_eq_self.mpr
    intro a ha
    simpa using hb a ha
  | cons a rest ih =>
    by_cases ha : a.name = neurofluxName
    · rw [spliceAtFirstNFG_cons_nfg a rest block ha, List.filter_append, filterNe_filterEq_nil]
      have hid : block.filter (fun a => a.name = neurofluxName) = block := by
        apply List.filter_eq_self.mpr
        intro x hx
        simpa using hb x hx
      rw [hid, List.append_nil]
    · rw [spliceAtFirstNFG_cons_other a rest block ha, List.filter_cons, ih]
      simp [ha]

theorem spliceAtFirstNFG_filter_ne (src block : List Aug)
    (hb : ∀ a ∈ block, a.name = neurofluxName) :
    (spliceAtFirstNFG src block).filter (fun a => a.name ≠ neurofluxName)
      = src.filter (fun a => a.name ≠ neurofluxName) := by
  induction src with
  | nil =>
    rw [spliceAtFirstNFG_nil]
    apply List.filter_eq_nil_iff.mpr
    intro a ha
    simp [hb a ha]
  | cons a rest ih =>
    by_cases ha : a.name = neurofluxName
    · rw [spliceAtFirstNFG_cons_nfg a rest block ha, List.filter_append, filterNe_idem_aug]
      have hbf : block.filter (fun a => a.name ≠ neurofluxName) = [] := by
        apply List.filter_eq_nil_iff.mpr
        intro x hx
        simp [hb x hx]
      rw [hbf, List.nil_append, List.filter_cons]
      simp [ha]
    · rw [spliceAtFirstNFG_cons_other a rest block ha, List.filter_cons, ih, List.filter_cons]

/-! Helper lemmas about updateServer and the purchased-flag sync loop. -/

theorem assignServer_flag (b : Bool) (s : ServerFields) :
    assignServer { purchasedByPlayer := some b } s = { s with purchasedByPlayer := b } := rfl

theorem setFlag_self (s : ServerFields) :
    ({ s with purchasedByPlayer := s.purchasedByPlayer } : ServerFields) = s := rfl

theorem updateServer_sections (st : Store) (h : String) (u : ServerUpdates)
    (srv : List (String × ServerFields)) (hs : st.modifiedSave.allServersSave = some srv) :
    (updateServer st h u).originalSave = st.originalSave ∧
    (updateServer st h u).modifiedSave.playerSave = st.modifiedSave.playerSave ∧
    ∃ srv', (updateServer st h u).modifiedSave.allServersSave = some srv' ∧
      (∀ k, k ≠ h → lookupA k srv' = lookupA k srv) ∧
      lookupA h srv' = (lookupA h srv).map (assignServer u) := by
  have hupd : updateServer st h u =
      match lookupA h srv with
      | none => st
      | some _ => { st with modifiedSave :=
          { st.modifiedSave with allServersSave := some (setA h (assignServer u) srv) } } := by
    unfold updateServer
    rw [hs]
  cases hl : lookupA h srv with
  | none =>
    have hupd2 : updateServer st h u = st := by rw [hupd, hl]
    rw [hupd2]
    exact ⟨rfl, rfl, srv, hs, fun k _ => rfl, by rw [hl]; rfl⟩
  | some s =>
    have hupd2 : updateServer st h u = { st with modifiedSave :=
        { st.modifiedSave with allServersSave := some (setA h (assignServer u) srv) } } := by
      rw [hupd, hl]
    rw [hupd2]
    exact ⟨rfl, rfl, setA h (assignServer u) srv, rfl,
      fun k hk => lookupA_setA_ne h k (assignServer u) hk srv,
      by rw [lookupA_setA_self, hl]⟩

theorem syncFold_lookup (lst : List String) :
    ∀ (entries : List (String × ServerFields)) (st : Store) (srv : List (String × ServerFields)),
      st.modifiedSave.allServersSave = some srv →
      (entries.map Prod.fst).Nodup →
      (∀ e ∈ entries, ∀ s, lookupA e.1 srv = some s →
        s.purchasedByPlayer = e.2.purchasedByPlayer) →
      ∃ srv', (entries.foldl (syncPurchasedFlagsStep lst) st).modifiedSave.allServersSave = some srv' ∧
        (entries.foldl (syncPurchasedFlagsStep lst) st).modifiedSave.playerSave
          = st.modifiedSave.playerSave ∧
        (entries.foldl (syncPurchasedFlagsStep lst) st).originalSave = st.originalSave ∧
        ∀ k, lookupA k srv' =
          if k ∈ entries.map Prod.fst then
            (lookupA k srv).map (fun s => { s with purchasedByPlayer := decide (k ∈ lst) })
          else lookupA k srv := by
  intro entries
  induction entries with
  | nil =>
    intro st srv hs _ _
    exact ⟨srv, hs, rfl, rfl, fun k => by simp⟩
  | cons e rest ih =>
    intro st srv hs hnd hE
    obtain ⟨h, d⟩ := e
    simp only [List.map_cons, List.nodup_cons] at hnd
    have hstep : ∃ srv1,
        (syncPurchasedFlagsStep lst st (h, d)).modifiedSave.allServersSave = some srv1 ∧
        (syncPurchasedFlagsStep lst st (h, d)).modifiedSave.playerSave
          = st.modifiedSave.playerSave ∧
        (syncPurchasedFlagsStep lst st (h, d)).originalSave = st.originalSave ∧
        (∀ k, k ≠ h → lookupA k srv1 = lookupA k srv) ∧
        lookupA h srv1 =
          (lookupA h srv).map (fun s => { s with purchasedByPlayer := decide (h ∈ lst) }) := by
      unfold syncPurchasedFlagsStep
      by_cases hflag : d.purchasedByPlayer ≠ decide (h ∈ lst)
      · rw [if_pos hflag]
        obtain ⟨ho, hp, srv1, hsrv1, hother, hself⟩ :=
          updateServer_sections st h { purchasedByPlayer := some (decide (h ∈ lst)) } srv hs
        refine ⟨srv1, hsrv1, hp, ho, hother, ?_⟩
        rw [hself]
        cases hl : lookupA h srv with
        | none => rfl
        | some s => rw [Option.map_some', Option.map_some', assignServer_flag]
      · rw [if_neg hflag]
        push_neg at hflag
        refine ⟨srv, hs, rfl, rfl, fun k _ => rfl, ?_⟩
        cases hl : lookupA h srv with
        | none => rfl
        | some s =>
          have := hE (h, d) (List.mem_cons_self _ _) s hl
          rw [Option.map_some']
          rw [show ({ s with purchasedByPlayer := decide (h ∈ lst) } : ServerFields)
              = s from by rw [← hflag, ← this]]
    obtain ⟨srv1, hsrv1, hp1, ho1, hother1, hself1⟩ := hstep
    have hErest : ∀ e' ∈ rest, ∀ s, lookupA e'.1 srv1 = some s →
        s.purchasedByPlayer = e'.2.purchasedByPlayer := by
      intro e' he' s hls
      have hne : e'.1 ≠ h := by
        intro hkeq
        exact hnd.1 (hkeq ▸ List.mem_map.mpr ⟨e', he', rfl⟩)
      rw [hother1 e'.1 hne] at hls
      exact hE e' (List.mem_cons_of_mem _ he') s hls
    obtain ⟨srv', hsrv', hp', ho', hlook⟩ :=
      ih (syncPurchasedFlagsStep lst st (h, d)) srv1 hsrv1 hnd.2 hErest
    refine ⟨srv', ?_, ?_, ?_, ?_⟩
    · rw [List.foldl_cons]
      exact hsrv'
    · rw [List.foldl_cons, hp', hp1]
    · rw [List.foldl_cons, ho', ho1]
    · intro k
      by_cases hkr : k ∈ rest.map Prod.fst
      · have hkh : k ≠ h := fun hkeq => hnd.1 (hkeq ▸ hkr)
        have hmem : k ∈ ((h, d) :: rest).map Prod.fst := by simp [hkr]
        rw [hlook k, if_pos hkr, hother1 k hkh, if_pos hmem]
      · by_cases hkh : k = h
        · subst hkh
          have hmem : k ∈ ((k, d) :: rest).map Prod.fst := by simp
          rw [hlook k, if_neg hkr, hself1, if_pos hmem]
        · have hmem : k ∉ ((h, d) :: rest).map Prod.fst := by simp [hkr, hkh]
          rw [hlook k, if_neg hkr, hother1 k hkh, if_neg hmem]

theorem normalizeServer_flag (k : String) (s : ServerFields) :
    (normalizeServer k s).purchasedByPlayer = s.purchasedByPlayer := by
  unfold normalizeServer
  by_cases h : s.hostname = ""
  · rw [if_pos h]
  · rw [if_neg h]

theorem syncPurchasedFlags_spec (st : Store) (lst : List String)
    (srv : List (String × ServerFields))
    (hs : st.modifiedSave.allServersSave = some srv)
    (hnd : (srv.map Prod.fst).Nodup) :
    ∃ srv', (syncPurchasedFlags st lst).modifiedSave.allServersSave = some srv' ∧
      (syncPurchasedFlags st lst).modifiedSave.playerSave = st.modifiedSave.playerSave ∧
      (syncPurchasedFlags st lst).originalSave = st.originalSave ∧
      ∀ k, lookupA k srv' =
        (lookupA k srv).map (fun s => { s with purchasedByPlayer := decide (k ∈ lst) }) := by
  have hproj : serversProjectionData st.modifiedSave
      = List.mergeSort (srv.map (fun e => (e.1, normalizeServer e.1 e.2))) serverOrderLe := by
    unfold serversProjectionData parseServersData
    rw [hs]
  have hpermkeys : ((serversProjectionData st.modifiedSave).map Prod.fst).Perm (srv.map Prod.fst) := by
    rw [hproj]
    have h1 := (List.mergeSort_perm (srv.map (fun e => (e.1, normalizeServer e.1 e.2))) serverOrderLe).map Prod.fst
    have h2 : (srv.map (fun e => (e.1, normalizeServer e.1 e.2))).map Prod.fst = srv.map Prod.fst := by
      rw [List.map_map]
      rfl
    rw [h2] at h1
    exact h1
  have hndE : ((serversProjectionData st.modifiedSave).map Prod.fst).Nodup :=
    hpermkeys.nodup_iff.mpr hnd
  have hE : ∀ e ∈ serversProjectionData st.modifiedSave, ∀ s,
      lookupA e.1 srv = some s → s.purchasedByPlayer = e.2.purchasedByPlayer := by
    intro e he s hls
    rw [hproj] at he
    rw [List.mem_mergeSort] at he
    rcases List.mem_map.mp he with ⟨x, hx, hex⟩
    have h1 : lookupA x.1 srv = some x.2 := lookupA_of_mem_nodup x.1 x.2 srv hnd hx
    rw [← hex] at hls ⊢
    simp only at hls
    rw [h1] at hls
    cases hls
    exact (normalizeServer_flag x.1 x.2).symm
  obtain ⟨srv', hsrv', hp', ho', hlook⟩ :=
    syncFold_lookup lst (serversProjectionData st.modifiedSave) st srv hs hndE hE
  refine ⟨srv', hsrv', hp', ho', ?_⟩
  intro k
  rw [hlook k]
  by_cases hk : k ∈ (serversProjectionData st.modifiedSave).map Prod.fst
  · rw [if_pos hk]
  · rw [if_neg hk]
    have hk2 : k ∉ srv.map Prod.fst := fun h => hk (hpermkeys.mem_iff.mpr h)
    rw [(lookupA_eq_none_iff k srv).mpr hk2]
    rfl

/-! Claim theorems. -/

/-- C10: calling updateServer with a hostname that has no record in the
working servers section, or when the servers section is null, leaves the
entire working container unchanged: no server record is created and no
other section or field is modified. -/
theorem c10_updateServer_missing_host_frame (st : Store) (hostname : String)
    (u : ServerUpdates)
    (h : st.modifiedSave.allServersSave.all (fun srv => decide (lookupA hostname srv = none)) = true) :
    updateServer st hostname u = st := by
  cases hs : st.modifiedSave.allServersSave with
  | none =>
    unfold updateServer
    rw [hs]
  | some srv =>
    rw [hs, Option.all_some] at h
    have hl : lookupA hostname srv = none := of_decide_eq_true h
    have hupd : updateServer st hostname u =
        match lookupA hostname srv with
        | none => st
        | some _ => { st with modifiedSave :=
            { st.modifiedSave with allServersSave := some (setA hostname (assignServer u) srv) } } := by
      unfold updateServer
      rw [hs]
    rw [hupd, hl]

/-- C10 witness: a concrete store with a servers section that has no record
for "ghost". -/
theorem c10_updateServer_missing_host_frame_witness :
    c10store.modifiedSave.allServersSave.all
        (fun srv => decide (lookupA "ghost" srv = none)) = true ∧
      updateServer c10store "ghost" { maxRam := some 64 } = c10store :=
  ⟨by decide,
   c10_updateServer_missing_host_frame c10store "ghost" { maxRam := some 64 } (by decide)⟩

/-- C3: on a save whose player exploit list lacks the EditSaveFile marker,
processFile appends the marker only to the working copy and only after the
baseline clone is taken, so the baseline lacks the marker and a subsequent
revertChanges strips it from the working container — contradicting the
claim that the baseline copy contains the marker and revert preserves it. -/
theorem c3_marker_added_after_baseline_clone :
    (processFile c3wire).toOption.map (fun st => st.originalSave.playerSave.map Player.exploits)
        = some (some []) ∧
      (processFile c3wire).toOption.map (fun st => st.modifiedSave.playerSave.map Player.exploits)
        = some (some [editSaveFileExploit]) ∧
      (processFile c3wire).toOption.map
          (fun st => (revertChanges st).modifiedSave.playerSave.map Player.exploits)
        = some (some []) := by
  decide

/-- C9: downloadFile reads match.groups on the filename regex result
without a null check, so the export throws a TypeError (modelled by none)
on a filename the pattern does not match instead of substituting the
recorded BN1x0 fallback; on a matching filename the download name embeds
the timestamp and the extracted identifier as claimed. -/
theorem c9_filename_fallback_unreachable :
    fileNameMatch "mysave.txt" = none ∧
      downloadName "mysave.txt" 1700000000 false = none ∧
      downloadName "bitburnerSave_123_BN2x3.json" 999 false
        = some "bitburnerSave_999_BN2x3-H4CKeD.json" ∧
      downloadName "bitburnerSave_123_BN2x3-H4CKeD.json.gz" 999 true
        = some "bitburnerSave_999_BN2x3-H4CKeD.json.gz" := by
  decide

/-- C1 counterexample: a container that decodes successfully but whose
immediate re-export differs from the input: the exported player payload
gains the EditSaveFile marker and the exported companies payload drops the
zero-valued company. -/
theorem c1_roundtrip_counterexample :
    (processFile c1wire).toOption.isSome = true ∧
      (processFile c1wire).toOption.map downloadRaw ≠ some c1wire ∧
      (processFile c1wire).toOption.map (fun st => (downloadRaw st).data.playerSave.map Player.exploits)
        = some (some [editSaveFileExploit]) ∧
      c1wire.data.playerSave.map Player.exploits = some [] ∧
      (processFile c1wire).toOption.map (fun st => (downloadRaw st).data.companiesSave)
        = some (some []) ∧
      c1wire.data.companiesSave
        = some [("Zero Corp", { favor := 0, playerReputation := some 0 })] := by
  decide

theorem applyExploitMarker_of_marked (st : Store)
    (h : st.modifiedSave.playerSave.all
      (fun p => decide (editSaveFileExploit ∈ p.exploits)) = true) :
    applyExploitMarker st = st := by
  cases hp : st.modifiedSave.playerSave with
  | none =>
    unfold applyExploitMarker
    rw [hp]
  | some p =>
    rw [hp, Option.all_some] at h
    unfold applyExploitMarker
    simp only [hp]
    rw [if_pos (of_decide_eq_true h)]

theorem encodeSections_of_no_zero_companies (s : SaveSections)
    (h : s.companiesSave.all (fun cs => decide (filterZeroCompanies cs = cs)) = true) :
    encodeSections s = s := by
  obtain ⟨pl, fa, se, co, x1, x2, x3, x4, x5, x6, x7, x8, x9, x10⟩ := s
  unfold encodeSections
  cases co with
  | none => rfl
  | some cs =>
    simp only [Option.all_some] at h
    simp only [Option.map_some']
    rw [of_decide_eq_true h]

/-- C1 amended: exporting immediately after a successful load reproduces
the input container exactly — the same type tag and, for every section
key, an equal payload (absent sections re-encoded as the empty-string
sentinel) — provided the loaded player payload already carries the
EditSaveFile marker (or is absent) and the loaded companies payload holds
no company with reputation 0 and favor 0 (or is absent); processFile
otherwise appends the marker to the working player payload and
downloadFile drops every zero-valued company from the exported companies
payload. -/
theorem c1_roundtrip_amended (w : RawSave)
    (hctor : w.ctor = saveObjectCtor)
    (hmark : w.data.playerSave.all
      (fun p => decide (editSaveFileExploit ∈ p.exploits)) = true)
    (hcomp : w.data.companiesSave.all
      (fun cs => decide (filterZeroCompanies cs = cs)) = true) :
    (processFile w).map downloadRaw = Except.ok w := by
  obtain ⟨wc, wd⟩ := w
  simp only at hctor hmark hcomp
  subst hctor
  unfold processFile
  rw [if_pos rfl]
  rw [applyExploitMarker_of_marked { originalSave := wd, modifiedSave := wd } hmark]
  show Except.ok (downloadRaw { originalSave := wd, modifiedSave := wd }) = _
  unfold downloadRaw
  rw [encodeSections_of_no_zero_companies wd hcomp]

/-- C1 amended witness: a marker-carrying, zero-company-free container
round-trips exactly. -/
theorem c1_roundtrip_amended_witness :
    c1wireGood.ctor = saveObjectCtor ∧
      (processFile c1wireGood).map downloadRaw = Except.ok c1wireGood :=
  ⟨rfl, c1_roundtrip_amended c1wireGood rfl (by decide) (by decide)⟩

theorem lookupA_deleteA_self (k : String) :
    ∀ l : List (String × α), lookupA k (deleteA k l) = none := by
  intro l
  induction l with
  | nil => rfl
  | cons e rest ih =>
    obtain ⟨k0, v⟩ := e
    by_cases h0 : k0 = k
    · subst h0
      simpa [deleteA, List.filter_cons] using ih
    · simpa [deleteA, List.filter_cons, h0, lookupA] using ih

theorem lookupA_append_missing (k : String) (v : α) :
    ∀ l : List (String × α), lookupA k l = none →
      lookupA k (l ++ [(k, v)]) = some v := by
  intro l
  induction l with
  | nil => intro; simp [lookupA]
  | cons e rest ih =>
    obtain ⟨k0, v0⟩ := e
    intro h
    by_cases h0 : k0 = k
    · rw [lookupA, if_pos h0] at h
      cases h
    · rw [lookupA, if_neg h0] at h
      rw [List.cons_append, lookupA, if_neg h0]
      exact ih h

/-- C4 counterexample: updateCompany keys suppression on the update fields
rather than the resulting values — an edit setting only reputation to 0
deletes a working entry whose favor is 5 — and the export filter drops
every zero-valued company regardless of baseline presence, so a company
pre-existing in baseline at zero that an edit sets from 10 back to 0 keeps
its explicit working entry yet is absent from the exported section. -/
theorem c4_company_suppression_counterexample :
    lookupA "Acme" (c4storeDel.modifiedSave.companiesSave.getD [])
        = some { favor := 5, playerReputation := some 3 } ∧
      lookupA "Acme" (c4storeDel.originalSave.companiesSave.getD []) = none ∧
      (updateCompany c4storeDel "Acme" { playerReputation := some 0 }).map
          (fun st => st.modifiedSave.companiesSave) = some (some []) ∧
      lookupA "Beta Inc" (c4storeExp.originalSave.companiesSave.getD [])
        = some { favor := 0, playerReputation := some 0 } ∧
      ((updateCompany c4storeExp "Beta Inc" { playerReputation := some 10 }).bind
          (fun st => updateCompany st "Beta Inc" { playerReputation := some 0, favor := some 0 })).map
          (fun st =>
            (lookupA "Beta Inc" (st.modifiedSave.companiesSave.getD []),
             (downloadRaw st).data.companiesSave))
        = some (some { favor := 0, playerReputation := some 0 }, some []) := by
  decide

/-- C4 amended: updateCompany deletes the working entry exactly when every
update field is zero or absent and the company is absent from the baseline
section; when a company pre-existing in baseline is edited back to
explicit zeros, its working entry remains an explicit zero record, but the
export filter omits it anyway, because downloadFile drops every company
whose reputation and favor are both zero regardless of baseline
presence. -/
theorem c4_company_suppression_amended (st : Store) (company : String) (u : CompanyUpdates)
    (cs ocs : List (String × CompanyRec))
    (hw : st.modifiedSave.companiesSave = some cs)
    (ho : st.originalSave.companiesSave = some ocs) :
    ∃ st' cs', updateCompany st company u = some st' ∧
      st'.modifiedSave.companiesSave = some cs' ∧
      (lookupA company cs' = none ↔
        ((u.favor = some 0 ∨ u.favor = none) ∧
          (u.playerReputation = some 0 ∨ u.playerReputation = none)) ∧
          lookupA company ocs = none) ∧
      (lookupA company ocs ≠ none →
        u = { favor := some 0, playerReputation := some 0 } →
        lookupA company cs' = some { favor := 0, playerReputation := some 0 } ∧
        (company, ({ favor := 0, playerReputation := some 0 } : CompanyRec))
          ∉ filterZeroCompanies cs') := by
  have hred : updateCompany st company u =
      (if ((u.favor = some 0 ∨ u.favor = none) ∧
            (u.playerReputation = some 0 ∨ u.playerReputation = none))
          ∧ lookupA company ocs = none then
        some { st with modifiedSave :=
          { st.modifiedSave with companiesSave := some (deleteA company cs) } }
      else
        some { st with modifiedSave :=
          { st.modifiedSave with companiesSave := some (setA company (assignCompany u)
            (match lookupA company cs with
             | none => cs ++ [(company, { favor := 0, playerReputation := some 0 })]
             | some _ => cs)) } }) := by
    unfold updateCompany
    rw [ho, hw]
    rfl
  by_cases hcond : ((u.favor = some 0 ∨ u.favor = none) ∧
      (u.playerReputation = some 0 ∨ u.playerReputation = none)) ∧ lookupA company ocs = none
  · have hupd : updateCompany st company u = some { st with modifiedSave :=
        { st.modifiedSave with companiesSave := some (deleteA company cs) } } := by
      rw [hred, if_pos hcond]
    refine ⟨_, deleteA company cs, hupd, rfl, ?_, ?_⟩
    · rw [lookupA_deleteA_self]
      exact ⟨fun _ => hcond, fun _ => rfl⟩
    · intro hne _
      exact absurd hcond.2 hne
  · have hupd : updateCompany st company u = some { st with modifiedSave :=
        { st.modifiedSave with companiesSave := some (setA company (assignCompany u)
          (match lookupA company cs with
           | none => cs ++ [(company, { favor := 0, playerReputation := some 0 })]
           | some _ => cs)) } } := by
      rw [hred, if_neg hcond]
    have hbase : ∃ c0, lookupA company
        (match lookupA company cs with
         | none => cs ++ [(company, { favor := 0, playerReputation := some 0 })]
         | some _ => cs) = some c0 := by
      cases hc : lookupA company cs with
      | none =>
        exact ⟨_, lookupA_append_missing company _ cs hc⟩
      | some c0 =>
        exact ⟨c0, hc⟩
    obtain ⟨c0, hc0⟩ := hbase
    have hlook : lookupA company (setA company (assignCompany u)
        (match lookupA company cs with
         | none => cs ++ [(company, { favor := 0, playerReputation := some 0 })]
         | some _ => cs)) = some (assignCompany u c0) := by
      rw [lookupA_setA_self, hc0]
      rfl
    refine ⟨_, _, hupd, rfl, ?_, ?_⟩
    · rw [hlook]
      exact ⟨fun h => Option.noConfusion h, fun h => absurd h hcond⟩
    · intro _ hu
      subst hu
      have hassign : assignCompany { favor := some 0, playerReputation := some 0 } c0
          = { favor := 0, playerReputation := some 0 } := rfl
      rw [hlook, hassign]
      refine ⟨rfl, ?_⟩
      intro hmem
      have := (List.mem_filter.mp hmem).2
      simp at this

/-- C4 amended witness: the amended characterization applied to the
concrete store whose working section holds Acme at favor 5 with no
baseline entry. -/
theorem c4_company_suppression_amended_witness :
    c4storeDel.modifiedSave.companiesSave
        = some [("Acme", { favor := 5, playerReputation := some 3 })] ∧
      c4storeDel.originalSave.companiesSave = some [] ∧
      ∃ st' cs',
        updateCompany c4storeDel "Acme" { playerReputation := some 0 } = some st' ∧
        st'.modifiedSave.companiesSave = some cs' ∧
        (lookupA "Acme" cs' = none ↔
          ((({ playerReputation := some 0 } : CompanyUpdates).favor = some 0 ∨
              ({ playerReputation := some 0 } : CompanyUpdates).favor = none) ∧
            (({ playerReputation := some 0 } : CompanyUpdates).playerReputation = some 0 ∨
              ({ playerReputation := some 0 } : CompanyUpdates).playerReputation = none)) ∧
            lookupA "Acme" ([] : List (String × CompanyRec)) = none) ∧
        (lookupA "Acme" ([] : List (String × CompanyRec)) ≠ none →
          ({ playerReputation := some 0 } : CompanyUpdates)
              = { favor := some 0, playerReputation := some 0 } →
          lookupA "Acme" cs' = some { favor := 0, playerReputation := some 0 } ∧
          ("Acme", ({ favor := 0, playerReputation := some 0 } : CompanyRec))
            ∉ filterZeroCompanies cs') :=
  ⟨rfl, rfl,
   c4_company_suppression_amended c4storeDel "Acme" { playerReputation := some 0 }
     [("Acme", { favor := 5, playerReputation := some 3 })] [] rfl rfl⟩

/-- C2 counterexample: when the requested pair equals the baseline's
NeuroFlux levels, onUpdateNeuroFlux replaces both arrays with the baseline
arrays verbatim; on a baseline whose installed array holds two NeuroFlux
records with maximum level 5 and queued levels up to 8, calling the update
with installedLevel=5 and queuedLevel=8 therefore leaves two installed
NeuroFlux records, not exactly one. -/
theorem c2_neuroflux_counterexample :
    nfgMaxLevel c2orig.augmentations 0 = 5 ∧
      nfgMaxLevel c2orig.queuedAugmentations (nfgMaxLevel c2orig.augmentations 0) = 8 ∧
      (onUpdateNeuroFlux c2orig c2orig 5 8).augmentations.filter
          (fun a => a.name = neurofluxName)
        = [{ name := neurofluxName, level := 3 }, { name := neurofluxName, level := 5 }] ∧
      ((onUpdateNeuroFlux c2orig c2orig 5 8).augmentations.filter
          (fun a => a.name = neurofluxName)).length ≠ 1 := by
  decide

/-- C2 amended: provided the requested (installedLevel, queuedLevel) pair
differs from the baseline's (maxInstalled, maxQueued) NeuroFlux levels —
when they are equal the code instead replaces both arrays with the
baseline arrays verbatim — calling the update with (5, 8) leaves exactly
one installed NeuroFlux record at level 5 and exactly the queued records
at levels 6, 7, 8; calling it with (0, 0) leaves zero NeuroFlux records in
both arrays; in both cases all non-NeuroFlux records are preserved
unchanged and in relative order, with the special records spliced in at
the position of the first special record (appended if none existed). -/
theorem c2_neuroflux_amended (orig cur : Player)
    (h5 : ¬(5 = nfgMaxLevel orig.augmentations 0 ∧
        8 = nfgMaxLevel orig.queuedAugmentations (nfgMaxLevel orig.augmentations 0)))
    (h0 : ¬(0 = nfgMaxLevel orig.augmentations 0 ∧
        0 = nfgMaxLevel orig.queuedAugmentations (nfgMaxLevel orig.augmentations 0))) :
    (onUpdateNeuroFlux orig cur 5 8).augmentations
        = spliceAtFirstNFG cur.augmentations [{ name := neurofluxName, level := 5 }] ∧
      (onUpdateNeuroFlux orig cur 5 8).queuedAugmentations
        = spliceAtFirstNFG cur.queuedAugmentations
            [{ name := neurofluxName, level := 6 }, { name := neurofluxName, level := 7 },
             { name := neurofluxName, level := 8 }] ∧
      (onUpdateNeuroFlux orig cur 5 8).augmentations.filter (fun a => a.name = neurofluxName)
        = [{ name := neurofluxName, level := 5 }] ∧
      (onUpdateNeuroFlux orig cur 5 8).queuedAugmentations.filter (fun a => a.name = neurofluxName)
        = [{ name := neurofluxName, level := 6 }, { name := neurofluxName, level := 7 },
           { name := neurofluxName, level := 8 }] ∧
      (onUpdateNeuroFlux orig cur 5 8).augmentations.filter (fun a => a.name ≠ neurofluxName)
        = cur.augmentations.filter (fun a => a.name ≠ neurofluxName) ∧
      (onUpdateNeuroFlux orig cur 5 8).queuedAugmentations.filter (fun a => a.name ≠ neurofluxName)
        = cur.queuedAugmentations.filter (fun a => a.name ≠ neurofluxName) ∧
      (onUpdateNeuroFlux orig cur 0 0).augmentations
        = cur.augmentations.filter (fun a => a.name ≠ neurofluxName) ∧
      (onUpdateNeuroFlux orig cur 0 0).queuedAugmentations
        = cur.queuedAugmentations.filter (fun a => a.name ≠ neurofluxName) := by
  have hb5 : ∀ a ∈ [({ name := neurofluxName, level := 5 } : Aug)], a.name = neurofluxName := by
    decide
  have hb8 : ∀ a ∈ [({ name := neurofluxName, level := 6 } : Aug),
      { name := neurofluxName, level := 7 }, { name := neurofluxName, level := 8 }],
      a.name = neurofluxName := by
    decide
  have hblock : nfgQueuedBlock 5 8 = [{ name := neurofluxName, level := 6 },
      { name := neurofluxName, level := 7 }, { name := neurofluxName, level := 8 }] := by
    decide
  have hr5 : onUpdateNeuroFlux orig cur 5 8 = { cur with
      augmentations := rebuildAugs (decide ((0 : Int) < 5))
        [{ name := neurofluxName, level := 5 }] cur.augmentations false,
      queuedAugmentations := rebuildAugs (decide ((5 : Int) < 8))
        (nfgQueuedBlock 5 8) cur.queuedAugmentations false } := by
    unfold onUpdateNeuroFlux
    rw [if_neg h5]
  have hr0 : onUpdateNeuroFlux orig cur 0 0 = { cur with
      augmentations := rebuildAugs (decide ((0 : Int) < 0))
        [{ name := neurofluxName, level := 0 }] cur.augmentations false,
      queuedAugmentations := rebuildAugs (decide ((0 : Int) < 0))
        (nfgQueuedBlock 0 0) cur.queuedAugmentations false } := by
    unfold onUpdateNeuroFlux
    rw [if_neg h0]
  have hd1 : decide ((0 : Int) < 5) = true := by decide
  have hd2 : decide ((5 : Int) < 8) = true := by decide
  have hd3 : decide ((0 : Int) < 0) = false := by decide
  rw [hr5, hr0, hblock, hd1, hd2, hd3]
  refine ⟨?_, ?_, ?_, ?_, ?_, ?_, ?_, ?_⟩
  · exact rebuildAugs_eq_splice _ cur.augmentations
  · exact rebuildAugs_eq_splice _ cur.queuedAugmentations
  · show (rebuildAugs true _ cur.augmentations false).filter _ = _
    rw [rebuildAugs_eq_splice]
    exact spliceAtFirstNFG_filter_eq cur.augmentations _ hb5
  · show (rebuildAugs true _ cur.queuedAugmentations false).filter _ = _
    rw [rebuildAugs_eq_splice]
    exact spliceAtFirstNFG_filter_eq cur.queuedAugmentations _ hb8
  · show (rebuildAugs true _ cur.augmentations false).filter _ = _
    rw [rebuildAugs_eq_splice]
    exact spliceAtFirstNFG_filter_ne cur.augmentations _ hb5
  · show (rebuildAugs true _ cur.queuedAugmentations false).filter _ = _
    rw [rebuildAugs_eq_splice]
    exact spliceAtFirstNFG_filter_ne cur.queuedAugmentations _ hb8
  · exact rebuildAugs_cond_false _ cur.augmentations false
  · exact rebuildAugs_cond_false _ cur.queuedAugmentations false

/-- C2 amended witness: the amended claim applied to a concrete baseline at
NeuroFlux levels (3, 4) and a concrete working player mixing NeuroFlux and
ordinary records. -/
theorem c2_neuroflux_amended_witness :
    ¬(5 = nfgMaxLevel c2origW.augmentations 0 ∧
        8 = nfgMaxLevel c2origW.queuedAugmentations (nfgMaxLevel c2origW.augmentations 0)) ∧
      ¬(0 = nfgMaxLevel c2origW.augmentations 0 ∧
        0 = nfgMaxLevel c2origW.queuedAugmentations (nfgMaxLevel c2origW.augmentations 0)) ∧
      ((onUpdateNeuroFlux c2origW c2cur 5 8).augmentations
          = spliceAtFirstNFG c2cur.augmentations [{ name := neurofluxName, level := 5 }] ∧
        (onUpdateNeuroFlux c2origW c2cur 5 8).queuedAugmentations
          = spliceAtFirstNFG c2cur.queuedAugmentations
              [{ name := neurofluxName, level := 6 }, { name := neurofluxName, level := 7 },
               { name := neurofluxName, level := 8 }] ∧
        (onUpdateNeuroFlux c2origW c2cur 5 8).augmentations.filter
            (fun a => a.name = neurofluxName)
          = [{ name := neurofluxName, level := 5 }] ∧
        (onUpdateNeuroFlux c2origW c2cur 5 8).queuedAugmentations.filter
            (fun a => a.name = neurofluxName)
          = [{ name := neurofluxName, level := 6 }, { name := neurofluxName, level := 7 },
             { name := neurofluxName, level := 8 }] ∧
        (onUpdateNeuroFlux c2origW c2cur 5 8).augmentations.filter
            (fun a => a.name ≠ neurofluxName)
          = c2cur.augmentations.filter (fun a => a.name ≠ neurofluxName) ∧
        (onUpdateNeuroFlux c2origW c2cur 5 8).queuedAugmentations.filter
            (fun a => a.name ≠ neurofluxName)
          = c2cur.queuedAugmentations.filter (fun a => a.name ≠ neurofluxName) ∧
        (onUpdateNeuroFlux c2origW c2cur 0 0).augmentations
          = c2cur.augmentations.filter (fun a => a.name ≠ neurofluxName) ∧
        (onUpdateNeuroFlux c2origW c2cur 0 0).queuedAugmentations
          = c2cur.queuedAugmentations.filter (fun a => a.name ≠ neurofluxName)) :=
  ⟨by decide, by decide, c2_neuroflux_amended c2origW c2cur (by decide) (by decide)⟩

theorem updateFaction_isMember (st : Store) (faction : String) (m : Bool)
    (fs ofs : List (String × FactionData)) (e : FactionData) (p : Player)
    (hfs : st.modifiedSave.factionsSave = some fs)
    (he : lookupA faction fs = some e)
    (hofs : st.originalSave.factionsSave = some ofs)
    (hp : st.modifiedSave.playerSave = some p) :
    updateFaction st faction { isMember := some m } =
      some { st with modifiedSave := { st.modifiedSave with
        factionsSave := some (setA faction (applyFactionRecordUpdates { isMember := some m }
          ((lookupA faction ofs).getD emptyFactionData)) fs),
        playerSave := some (applyMembershipEdit st.originalSave.playerSave faction m p) } } := by
  obtain ⟨os, ms⟩ := st
  obtain ⟨pl, faS, seS, coS, b1, b2, b3, b4, b5, b6, b7, b8, b9, b10⟩ := ms
  simp only at hfs hp hofs ⊢
  subst hfs
  subst hp
  unfold updateFaction
  change Option.bind (lookupA faction fs) _ = _
  rw [he]
  change Option.bind os.factionsSave _ = _
  rw [hofs]
  rfl

theorem applyMembershipEdit_leave (origPlayer : Option Player) (faction : String)
    (p : Player) (L : List String) (hL : p.factions = some L) (hf : faction ∈ L) :
    applyMembershipEdit origPlayer faction false p
      = { p with factions := some (L.filter (fun x => x ≠ faction)) } := by
  unfold applyMembershipEdit
  rw [hL, Option.getD_some]
  rw [if_neg (by simp [hf])]
  rw [if_neg (by simp)]

theorem applyMembershipEdit_rejoin (op : Player) (faction : String)
    (p : Player) (L : List String)
    (hL : p.factions = some (L.filter (fun x => x ≠ faction)))
    (hoL : op.factions = some L)
    (hnd : L.Nodup) (hf : faction ∈ L) :
    applyMembershipEdit (some op) faction true p = { p with factions := some L } := by
  unfold applyMembershipEdit
  rw [hL, Option.getD_some]
  have hnm : faction ∉ L.filter (fun x => x ≠ faction) := by simp
  rw [if_neg (by simp [hnm])]
  rw [if_pos rfl]
  show ({ p with factions := some (insertAtOriginalIndex
    (dedupFirst (L.filter (fun x => x ≠ faction))) faction
    ((Option.bind (some op) Player.factions).getD [])) } : Player) = _
  rw [Option.some_bind, hoL, Option.getD_some,
    dedupFirst_of_nodup _ (hnd.filter _),
    insertAtOriginalIndex_restore faction L hnd hf]

theorem applyMembershipEdit_join_fresh (op : Player) (faction : String)
    (p : Player) (L : List String)
    (hL : p.factions = some L)
    (hoL : op.factions = some L)
    (hnd : L.Nodup) (hg : faction ∉ L) :
    applyMembershipEdit (some op) faction true p = { p with factions := some (L ++ [faction]) } := by
  unfold applyMembershipEdit
  rw [hL, Option.getD_some]
  rw [if_neg (by simp [hg])]
  rw [if_pos rfl]
  show ({ p with factions := some (insertAtOriginalIndex
    (dedupFirst L) faction ((Option.bind (some op) Player.factions).getD [])) } : Player) = _
  rw [Option.some_bind, hoL, Option.getD_some, dedupFirst_of_nodup _ hnd,
    insertAtOriginalIndex_append faction L L hg hg]


theorem updateFaction_isMember_spec (st : Store) (faction : String) (m : Bool)
    (fs ofs : List (String × FactionData)) (e : FactionData) (p : Player)
    (hfs : st.modifiedSave.factionsSave = some fs)
    (he : lookupA faction fs = some e)
    (hofs : st.originalSave.factionsSave = some ofs)
    (hp : st.modifiedSave.playerSave = some p) :
    ∃ st1, updateFaction st faction { isMember := some m } = some st1 ∧
      st1.originalSave = st.originalSave ∧
      st1.modifiedSave.playerSave
        = some (applyMembershipEdit st.originalSave.playerSave faction m p) ∧
      st1.modifiedSave.factionsSave
        = some (setA faction (applyFactionRecordUpdates { isMember := some m }
            ((lookupA faction ofs).getD emptyFactionData)) fs) :=
  ⟨_, updateFaction_isMember st faction m fs ofs e p hfs he hofs hp, rfl, rfl, rfl⟩

/-- C6: for a faction name present in baseline's player.factions list (with
the working list equal to the baseline list), updateFaction with
isMember=false followed by updateFaction with isMember=true restores
player.factions to the baseline list, the re-inserted name occupying its
original baseline position; and for a name absent from the baseline list,
the membership grant appends it (the stable-reinsertion fallback). -/
theorem c6_stable_reinsertion (st : Store) (f g : String) (L : List String)
    (fs ofs : List (String × FactionData)) (p op : Player)
    (hfs : st.modifiedSave.factionsSave = some fs)
    (hofs : st.originalSave.factionsSave = some ofs)
    (hp : st.modifiedSave.playerSave = some p)
    (hop : st.originalSave.playerSave = some op)
    (hL : p.factions = some L)
    (hoL : op.factions = some L)
    (hnd : L.Nodup) (hf : f ∈ L)
    (hfe : (lookupA f fs).isSome = true)
    (hg : g ∉ L)
    (hge : (lookupA g fs).isSome = true) :
    (∃ st2 p2,
      (updateFaction st f { isMember := some false }).bind
          (fun s => updateFaction s f { isMember := some true }) = some st2 ∧
        st2.modifiedSave.playerSave = some p2 ∧ p2.factions = some L) ∧
      (∃ st3 p3, updateFaction st g { isMember := some true } = some st3 ∧
        st3.modifiedSave.playerSave = some p3 ∧ p3.factions = some (L ++ [g])) := by
  obtain ⟨e1, he1⟩ := Option.isSome_iff_exists.mp hfe
  obtain ⟨e3, he3⟩ := Option.isSome_iff_exists.mp hge
  constructor
  · obtain ⟨st1, h1, ho1, hp1, hfs1⟩ :=
      updateFaction_isMember_spec st f false fs ofs e1 p hfs he1 hofs hp
    have hm1 : applyMembershipEdit st.originalSave.playerSave f false p
        = { p with factions := some (L.filter (fun x => x ≠ f)) } := by
      rw [hop]
      exact applyMembershipEdit_leave (some op) f p L hL hf
    have hofs1 : st1.originalSave.factionsSave = some ofs := by rw [ho1]; exact hofs
    have he2 : lookupA f (setA f (applyFactionRecordUpdates { isMember := some false }
        ((lookupA f ofs).getD emptyFactionData)) fs)
        = some (applyFactionRecordUpdates { isMember := some false }
            ((lookupA f ofs).getD emptyFactionData) e1) := by
      rw [lookupA_setA_self, he1]
      rfl
    obtain ⟨st2, h2, ho2, hp2, hfs2⟩ :=
      updateFaction_isMember_spec st1 f true _ ofs _
        (applyMembershipEdit st.originalSave.playerSave f false p) hfs1 he2 hofs1 hp1
    refine ⟨st2, applyMembershipEdit st1.originalSave.playerSave f true
        (applyMembershipEdit st.originalSave.playerSave f false p), ?_, hp2, ?_⟩
    · rw [h1, Option.some_bind, h2]
    · have hm2 : applyMembershipEdit st1.originalSave.playerSave f true
          (applyMembershipEdit st.originalSave.playerSave f false p)
          = { applyMembershipEdit st.originalSave.playerSave f false p with
              factions := some L } := by
        rw [ho1, hop]
        refine applyMembershipEdit_rejoin op f _ L ?_ hoL hnd hf
        rw [hop] at hm1
        rw [hm1]
      rw [hm2]
  · obtain ⟨st3, h3, ho3, hp3, hfs3⟩ :=
      updateFaction_isMember_spec st g true fs ofs e3 p hfs he3 hofs hp
    refine ⟨st3, applyMembershipEdit st.originalSave.playerSave g true p, h3, hp3, ?_⟩
    have hm3 : applyMembershipEdit st.originalSave.playerSave g true p
        = { p with factions := some (L ++ [g]) } := by
      rw [hop]
      exact applyMembershipEdit_join_fresh op g p L hL hoL hnd hg
    rw [hm3]

/-- C6 witness: the toggle-off-then-on restoration and the fresh-name
append applied to a concrete store whose baseline membership list is
[f1, f2, f3]. -/
theorem c6_stable_reinsertion_witness :
    (["f1", "f2", "f3"] : List String).Nodup ∧
      "f2" ∈ (["f1", "f2", "f3"] : List String) ∧
      "g1" ∉ (["f1", "f2", "f3"] : List String) ∧
      ((∃ st2 p2, (updateFaction c6store "f2" { isMember := some false }).bind
            (fun s => updateFaction s "f2" { isMember := some true }) = some st2 ∧
          st2.modifiedSave.playerSave = some p2 ∧ p2.factions = some ["f1", "f2", "f3"]) ∧
        (∃ st3 p3, updateFaction c6store "g1" { isMember := some true } = some st3 ∧
          st3.modifiedSave.playerSave = some p3 ∧
          p3.factions = some (["f1", "f2", "f3"] ++ ["g1"]))) :=
  ⟨by decide, by decide, by decide,
   c6_stable_reinsertion c6store "f2" "g1" ["f1", "f2", "f3"]
     [("f1", emptyFactionData), ("f2", emptyFactionData), ("g1", emptyFactionData)]
     [("f1", emptyFactionData), ("f2", emptyFactionData), ("g1", emptyFactionData)]
     { samplePlayer with factions := some ["f1", "f2", "f3"] }
     { samplePlayer with factions := some ["f1", "f2", "f3"] }
     rfl rfl rfl rfl rfl rfl (by decide) (by decide) (by decide) (by decide) (by decide)⟩

/-- C5 counterexample: on a loaded container whose player holds an
invitation to faction A and no membership, updateFaction granting
isMember=true leaves the name in player.factionInvitations, and the
factions projection then reports the entry with both the membership flag
and the invited flag true — contradicting the claimed invariant that the
invited flag is true only when the membership flag is false. -/
theorem c5_faction_flags_counterexample :
    (updateFaction c5store "A" { isMember := some true }).map
        (fun st => st.modifiedSave.playerSave.map Player.factionInvitations)
      = some (some (some ["A"])) ∧
      (updateFaction c5store "A" { isMember := some true }).map
          (fun st => factionsProjection st.modifiedSave)
        = some (some [("A", (⟨"A", 0, 0, true, true, false, []⟩ : FactionView))]) := by
  obtain ⟨st1, h1, ho1, hp1, hfs1⟩ := updateFaction_isMember_spec c5store "A" true
    [("A", emptyFactionData)] [("A", emptyFactionData)] emptyFactionData
    { samplePlayer with factionInvitations := some ["A"] } rfl (by decide) rfl rfl
  constructor
  · rw [h1, Option.map_some', hp1]
    decide
  · rw [h1, Option.map_some']
    have hproj : factionsProjection st1.modifiedSave
        = some [("A", (⟨"A", 0, 0, true, true, false, []⟩ : FactionView))] := by
      unfold factionsProjection
      rw [hfs1]
      change Option.bind st1.modifiedSave.playerSave _ = _
      rw [hp1]
      change some (parseFactionsData _ _) = _
      unfold parseFactionsData
      change some (List.mergeSort [_] _) = _
      rw [List.mergeSort_singleton]
      decide
    rw [hproj]

/-- C5 amended: for every entry of the factions projection over a container
whose player-level lists are both present, the membership flag is true iff
the name is in player.factions; and when the name is not simultaneously in
both lists, the invited flag is true iff the name is in
player.factionInvitations and the membership flag is false. The projection
computes the invited flag from list membership alone, and updateFaction
with isMember=true does not remove the name from the invitation list, so a
name present in both lists is reported with both flags true. -/
theorem c5_faction_flags_amended (p : Player) (fs : List (String × FactionData))
    (mf inv : List String) (name : String) (v : FactionView)
    (hfl : p.factions = some mf) (hil : p.factionInvitations = some inv)
    (hmem : (name, v) ∈ parseFactionsData p fs)
    (hnb : ¬(name ∈ mf ∧ name ∈ inv)) :
    (v.isMember = true ↔ name ∈ mf) ∧
      (v.alreadyInvited = true ↔ (name ∈ inv ∧ v.isMember = false)) := by
  unfold parseFactionsData at hmem
  rw [List.mem_mergeSort] at hmem
  rcases List.mem_map.mp hmem with ⟨⟨n0, d0⟩, hd0, heq⟩
  cases heq
  have hmv : (factionViewOf p n0 d0).isMember = decide (n0 ∈ mf) := by
    unfold factionViewOf
    rw [hfl]
  have hiv : (factionViewOf p n0 d0).alreadyInvited = decide (n0 ∈ inv) := by
    unfold factionViewOf
    rw [hil]
  constructor
  · rw [hmv]
    exact decide_eq_true_iff
  · rw [hiv, hmv]
    constructor
    · intro h
      have hi : n0 ∈ inv := of_decide_eq_true h
      refine ⟨hi, ?_⟩
      by_cases hm : n0 ∈ mf
      · exact absurd ⟨hm, hi⟩ hnb
      · simp [hm]
    · intro h
      exact decide_eq_true h.1

/-- C5 amended witness: the amended invariant applied to a concrete player
who is a member of faction A, invited to faction B, with a single faction
record for B; the projected entry for B has the membership flag false and
the invited flag true. -/
theorem c5_faction_flags_amended_witness :
    ((⟨"B", 0, 0, true, false, false, []⟩ : FactionView).isMember = true
        ↔ "B" ∈ (["A"] : List String)) ∧
      ((⟨"B", 0, 0, true, false, false, []⟩ : FactionView).alreadyInvited = true
        ↔ ("B" ∈ (["B"] : List String)
            ∧ (⟨"B", 0, 0, true, false, false, []⟩ : FactionView).isMember = false)) :=
  c5_faction_flags_amended
    { samplePlayer with factions := some ["A"], factionInvitations := some ["B"] }
    [("B", emptyFactionData)] ["A"] ["B"] "B" ⟨"B", 0, 0, true, false, false, []⟩
    rfl rfl
    (by unfold parseFactionsData
        rw [List.mem_mergeSort]
        decide)
    (by decide)

theorem knownServerHostnames_c7store : knownServerHostnames c7store = ["foo"] := by
  show (List.mergeSort [("foo", normalizeServer "foo" (sampleServer "foo" false))]
      serverOrderLe).map Prod.fst = ["foo"]
  rw [List.mergeSort_singleton]
  rfl

/-- C7 counterexample: the C7 store holds a server record "foo" with the
purchased flag false and an empty purchased list, yet handleAddPurchased
with "foo" returns the store unchanged: the duplicate-hostname guard
refuses any name that case-insensitively matches an existing server
record, so the claimed case — adding a hostname that exists as a server
record flips its flag to true — is exactly the refused case and the flag
stays false. -/
theorem c7_purchased_sync_counterexample :
    handleAddPurchased c7store "foo" = some c7store ∧
      c7store.modifiedSave.playerSave.map Player.purchasedServers = some [] ∧
      c7store.modifiedSave.allServersSave = some [("foo", sampleServer "foo" false)] ∧
      (sampleServer "foo" false).purchasedByPlayer = false := by
  have hbind : handleAddPurchased c7store "foo"
      = (if strTrim "foo" = "" then some c7store
         else if 25 ≤ samplePlayer.purchasedServers.length then some c7store
         else if (knownServerHostnames c7store).any
             (fun host => strToLower host = strToLower (strTrim "foo")) then some c7store
         else do
           let st1 ← setPurchasedServers c7store (samplePlayer.purchasedServers ++ [strTrim "foo"])
           some (syncPurchasedFlags st1 (samplePlayer.purchasedServers ++ [strTrim "foo"]))) := rfl
  refine ⟨?_, by decide, rfl, by decide⟩
  rw [hbind, if_neg (by decide), if_neg (by decide),
    if_pos (show ((knownServerHostnames c7store).any
        (fun host => strToLower host = strToLower (strTrim "foo"))) = true from by
      rw [knownServerHostnames_c7store]
      decide)]

/-- C7 amended: handleAddPurchased returns the store unchanged whenever the
trimmed name case-insensitively equals a projected server hostname — in
particular whenever the name exists as a server record — as well as for
empty names and full lists; a successful add appends the trimmed name to
player.purchasedServers and re-syncs every server record's
purchasedByPlayer flag to membership of its key in the new list; and
handleRemovePurchased filters the hostname out of the list and re-syncs
likewise, so the removed hostname's record flag becomes false and, after
either re-sync, every record's flag equals the membership of its hostname
in the purchased list. -/
theorem c7_purchased_sync_amended (st : Store) (p : Player)
    (srv : List (String × ServerFields)) (n h0 : String)
    (hp : st.modifiedSave.playerSave = some p)
    (hs : st.modifiedSave.allServersSave = some srv)
    (hnd : (srv.map Prod.fst).Nodup) :
    (strTrim n ≠ "" → ¬ 25 ≤ p.purchasedServers.length →
      (knownServerHostnames st).any
          (fun host => strToLower host = strToLower (strTrim n)) = true →
      handleAddPurchased st n = some st) ∧
    ((knownServerHostnames st).any
          (fun host => strToLower host = strToLower (strTrim n)) = false →
      strTrim n ≠ "" → ¬ 25 ≤ p.purchasedServers.length →
      ∃ st1 srv1, handleAddPurchased st n = some st1 ∧
        st1.modifiedSave.playerSave
          = some { p with purchasedServers := p.purchasedServers ++ [strTrim n] } ∧
        st1.modifiedSave.allServersSave = some srv1 ∧
        ∀ k, lookupA k srv1 = (lookupA k srv).map
          (fun s => { s with purchasedByPlayer := decide (k ∈ p.purchasedServers ++ [strTrim n]) })) ∧
    (∃ st2 srv2, handleRemovePurchased st h0 = some st2 ∧
      st2.modifiedSave.playerSave
        = some { p with purchasedServers :=
            p.purchasedServers.filter (fun host => host ≠ h0) } ∧
      st2.modifiedSave.allServersSave = some srv2 ∧
      ∀ k, lookupA k srv2 = (lookupA k srv).map
        (fun s => { s with purchasedByPlayer := decide (k ∈ p.purchasedServers.filter (fun host => host ≠ h0)) })) := by
  have hbind : handleAddPurchased st n
      = (if strTrim n = "" then some st
         else if 25 ≤ p.purchasedServers.length then some st
         else if (knownServerHostnames st).any
             (fun host => strToLower host = strToLower (strTrim n)) then some st
         else do
           let st1 ← setPurchasedServers st (p.purchasedServers ++ [strTrim n])
           some (syncPurchasedFlags st1 (p.purchasedServers ++ [strTrim n]))) := by
    unfold handleAddPurchased
    rw [hp]
    rfl
  have hbindR : handleRemovePurchased st h0
      = (do
          let st1 ← setPurchasedServers st (p.purchasedServers.filter (fun host => host ≠ h0))
          some (syncPurchasedFlags st1
            (p.purchasedServers.filter (fun host => host ≠ h0)))) := by
    unfold handleRemovePurchased
    rw [hp]
    rfl
  have hset : ∀ lst, setPurchasedServers st lst
      = some (withWorkingPlayer st { p with purchasedServers := lst }) := by
    intro lst
    unfold setPurchasedServers
    rw [hp]
    rfl
  refine ⟨?_, ?_, ?_⟩
  · intro hne hlen hguard
    rw [hbind, if_neg hne, if_neg hlen, if_pos hguard]
  · intro hguard hne hlen
    have hrun : handleAddPurchased st n
        = some (syncPurchasedFlags
            (withWorkingPlayer st { p with purchasedServers := p.purchasedServers ++ [strTrim n] })
            (p.purchasedServers ++ [strTrim n])) := by
      rw [hbind, if_neg hne, if_neg hlen,
        if_neg (show ¬ ((knownServerHostnames st).any
            (fun host => strToLower host = strToLower (strTrim n)) = true) from by
          rw [hguard]
          exact Bool.false_ne_true)]
      rw [hset]
      rfl
    obtain ⟨srv1, h1, h2, h3, h4⟩ := syncPurchasedFlags_spec
      (withWorkingPlayer st { p with purchasedServers := p.purchasedServers ++ [strTrim n] })
      (p.purchasedServers ++ [strTrim n]) srv hs hnd
    exact ⟨_, srv1, hrun, h2, h1, h4⟩
  · have hrun : handleRemovePurchased st h0
        = some (syncPurchasedFlags
            (withWorkingPlayer st
              { p with purchasedServers := p.purchasedServers.filter (fun host => host ≠ h0) })
            (p.purchasedServers.filter (fun host => host ≠ h0))) := by
      rw [hbindR, hset]
      rfl
    obtain ⟨srv2, h1, h2, h3, h4⟩ := syncPurchasedFlags_spec
      (withWorkingPlayer st
        { p with purchasedServers := p.purchasedServers.filter (fun host => host ≠ h0) })
      (p.purchasedServers.filter (fun host => host ≠ h0)) srv hs hnd
    exact ⟨_, srv2, hrun, h2, h1, h4⟩

/-- C7 amended witness: the refusal branch applied to the concrete C7
store and the name "foo", which exists as a server record. -/
theorem c7_purchased_sync_amended_witness :
    handleAddPurchased c7store "foo" = some c7store :=
  (c7_purchased_sync_amended c7store samplePlayer [("foo", sampleServer "foo" false)]
      "foo" "x" rfl rfl (by decide)).1
    (by decide) (by decide)
    (by rw [knownServerHostnames_c7store]
        decide)

/-- C8: when calculateImpact is non-empty and the change is not yet
confirmed, applyChange leaves the working player untouched and only
records the pending confirmation, with the computed impact list;
handleCancelChange on that state leaves the working player untouched and
dismisses the dialog; and handleConfirmChange applies the change as the
single confirmed batch (the mutation body run with confirmation granted
and the cascade list), dismissing the dialog. -/
theorem c8_cascade_confirmation (allAugs : List String) (augData : List (String × AugInfo))
    (orig : Player) (st : AugEditorState) (augName : String) (status : AugStatus) (level : Int)
    (himp : calculateImpact allAugs augData st.player augName status ≠ []) :
    (applyChange allAugs augData orig st augName status level false).player = st.player ∧
      (applyChange allAugs augData orig st augName status level false).confirmDialog
        = some { augName := augName, newStatus := status, newLevel := level,
                 affectedAugmentations := calculateImpact allAugs augData st.player augName status } ∧
      (handleCancelChange (applyChange allAugs augData orig st augName status level false)).player
        = st.player ∧
      handleConfirmChange allAugs augData orig
          (applyChange allAugs augData orig st augName status level false)
        = { player := applyChangeBody orig st.player augName status level true
              (calculateImpact allAugs augData st.player augName status),
            confirmDialog := Option.none } := by
  obtain ⟨p0, dlg0⟩ := st
  have h1 : applyChange allAugs augData orig ⟨p0, dlg0⟩ augName status level false
      = ⟨p0, some { augName := augName, newStatus := status, newLevel := level, affectedAugmentations := calculateImpact allAugs augData p0 augName status }⟩ :=
    if_pos ⟨himp, Bool.false_ne_true⟩
  refine ⟨?_, ?_, ?_, ?_⟩
  · rw [h1]
  · rw [h1]
  · rw [h1]
    rfl
  · rw [h1]
    have h2 : applyChange allAugs augData orig (⟨p0, some { augName := augName, newStatus := status, newLevel := level, affectedAugmentations := calculateImpact allAugs augData p0 augName status }⟩ : AugEditorState) augName status level true
        = ⟨applyChangeBody orig p0 augName status level true (calculateImpact allAugs augData p0 augName status), some { augName := augName, newStatus := status, newLevel := level, affectedAugmentations := calculateImpact allAugs augData p0 augName status }⟩ :=
      if_neg (fun hc => hc.2 rfl)
    show ({ (applyChange allAugs augData orig (⟨p0, some { augName := augName, newStatus := status, newLevel := level, affectedAugmentations := calculateImpact allAugs augData p0 augName status }⟩ : AugEditorState) augName status level true) with confirmDialog := Option.none } : AugEditorState) = _
    rw [h2]

/-- C8 witness: removing AugA while its dependent AugB is installed has a
non-empty impact; the pending-confirmation, cancel and confirm behaviours
at that concrete state. -/
theorem c8_cascade_confirmation_witness :
    (applyChange c8allAugs c8augData samplePlayer c8state "AugA" AugStatus.none 0 false).player
        = c8state.player ∧
      (applyChange c8allAugs c8augData samplePlayer c8state "AugA" AugStatus.none 0 false).confirmDialog
        = some { augName := "AugA", newStatus := AugStatus.none, newLevel := 0,
                 affectedAugmentations := calculateImpact c8allAugs c8augData c8state.player "AugA" AugStatus.none } ∧
      (handleCancelChange (applyChange c8allAugs c8augData samplePlayer c8state "AugA" AugStatus.none 0 false)).player
        = c8state.player ∧
      handleConfirmChange c8allAugs c8augData samplePlayer
          (applyChange c8allAugs c8augData samplePlayer c8state "AugA" AugStatus.none 0 false)
        = { player := applyChangeBody samplePlayer c8state.player "AugA" AugStatus.none 0 true
              (calculateImpact c8allAugs c8augData c8state.player "AugA" AugStatus.none),
            confirmDialog := Option.none } :=
  c8_cascade_confirmation c8allAugs c8augData samplePlayer c8state "AugA" AugStatus.none 0
    (by decide)
